import Mathlib

/-!
# Neon Runner (Endless-Runner.js): simulation core

A shallow embedding of the per-frame simulation of `src/Endless-Runner.js`
and the properties of it that the specification states.

Modelling conventions.

* JavaScript numbers are modelled as exact rationals (`ℚ`); counters that
  only ever hold integers (`score`, `life`) are `Int`. The rounding of IEEE
  754 doubles is left out there, so the theorems over `ℚ` state structure and
  inequalities, not decimal values that only hold in exact arithmetic. The
  physics of the player is modelled a second time with the rounding in
  (`PlayerIEEE`, `updatePlayerIEEE`), for the values along a jump.
* The free-standing mutable variables of the script (run-state scalars,
  entity arrays, the `player` object) are gathered in one record,
  `GameState`, which every function takes and returns.
* `Math.random()` is an input: the state carries the stream of values the
  future calls will return, and each call consumes the head of the stream.
* `canvas.width` comes from the page, not from the script: it is the
  parameter `W` of the functions that read it.
* `Array.prototype.forEach` is modelled with its ECMAScript semantics: the
  length is read once, the indices `0 .. len-1` are visited in order, and
  an index that is no longer in the array (after a `splice`) is skipped.
* Writes to the DOM, audio and the drawing calls do not touch the
  simulation state and are left out.
-/

namespace EndlessRunner

/-! ## Data model -/

/-- Obstacle variant tags, the entries of `types` in `createObstacle`. -/
inductive ObstacleType where
  | spike
  | wall
  | pit
  deriving DecidableEq, Repr

/-- Colours: a literal such as `'#ff0080'`, or the template
`hsl(h, 70%, 30%)` of the buildings, kept as its hue. -/
inductive Color where
  | hex (code : String)
  | hsl (hue : ℚ)
  deriving DecidableEq, Repr

/-- One entry of `player.trail`. -/
structure TrailPoint where
  x : ℚ
  y : ℚ
  life : Int
  deriving DecidableEq, Repr

/-- The `player` object. -/
structure Player where
  x : ℚ
  y : ℚ
  width : ℚ
  height : ℚ
  velocityY : ℚ
  jumping : Bool
  onGround : Bool
  color : Color
  trail : List TrailPoint
  deriving DecidableEq, Repr

/-- An element of `obstacles`. `type` is `none` when `types[i]` was read
out of range (JavaScript `undefined`). -/
structure Obstacle where
  x : ℚ
  y : ℚ
  width : ℚ
  height : ℚ
  type : Option ObstacleType
  color : Color
  deriving DecidableEq, Repr

/-- An element of `coins`. -/
structure Coin where
  x : ℚ
  y : ℚ
  size : ℚ
  rotation : ℚ
  collected : Bool
  deriving DecidableEq, Repr

/-- An element of `particles`. -/
structure Particle where
  x : ℚ
  y : ℚ
  vx : ℚ
  vy : ℚ
  life : Int
  maxLife : Int
  color : Color
  size : ℚ
  deriving DecidableEq, Repr

/-- An element of `buildings`. -/
structure Building where
  x : ℚ
  y : ℚ
  width : ℚ
  height : ℚ
  color : Color
  deriving DecidableEq, Repr

/-- An element of `clouds`. -/
structure Cloud where
  x : ℚ
  y : ℚ
  size : ℚ
  speed : ℚ
  deriving DecidableEq, Repr

/-- The global variables of the script, plus the stream `random` of the
values that the coming calls of `Math.random()` return. -/
structure GameState where
  gameRunning : Bool
  gameStarted : Bool
  score : Int
  distance : ℚ
  speedMultiplier : ℚ
  obstacles : List Obstacle
  coins : List Coin
  particles : List Particle
  buildings : List Building
  clouds : List Cloud
  player : Player
  random : Nat → ℚ

/-- Base speed, `const gameSpeed = 2`. -/
def gameSpeed : ℚ := 2

/-- Ground line, `const groundY = 340`. -/
def groundY : ℚ := 340

/-- Gravity per tick, `const gravity = 0.8`. -/
def gravity : ℚ := 4 / 5

/-- Jump velocity, `const jumpPower = -15`. -/
def jumpPower : ℚ := -15

/-- One call of `Math.random()`: the head of the stream, and the state with the
stream advanced. -/
def mathRandom (s : GameState) : ℚ × GameState :=
  (s.random 0, { s with random := fun n => s.random (n + 1) })

/-- The loop of `Array.prototype.forEach` over the array `arr` of the state:
`n` indices are still to be visited, `k` is the current one. The callback
receives the element found at index `k` at that moment, the index, and the
state; an index outside the (possibly shrunk) array is skipped. -/
def forEachFrom {α : Type} (arr : GameState → List α)
    (cb : α → Nat → GameState → GameState) : Nat → Nat → GameState → GameState
  | 0, _, s => s
  | n + 1, k, s =>
    match (arr s)[k]? with
    | some a => forEachFrom arr cb n (k + 1) (cb a k s)
    | none => forEachFrom arr cb n (k + 1) s

/-- The call `arr.forEach(cb)`: the length is read once, before the first visit. -/
def forEach {α : Type} (arr : GameState → List α)
    (cb : α → Nat → GameState → GameState) (s : GameState) : GameState :=
  forEachFrom arr cb (arr s).length 0 s

/-! ## Spawners -/

/-- The array `types` of `createObstacle`. -/
def types : List ObstacleType := [ObstacleType.spike, ObstacleType.wall, ObstacleType.pit]

/-- The object literal pushed by `createObstacle` for a given `type`. -/
def newObstacle (W : ℚ) (type : Option ObstacleType) : Obstacle :=
  { x := W
    y := if type = some ObstacleType.pit then groundY else groundY - 30
    width := if type = some ObstacleType.wall then 20 else 30
    height := if type = some ObstacleType.pit then 20 else 30
    type := type
    color := if type = some ObstacleType.spike then Color.hex "#ff0080"
             else if type = some ObstacleType.wall then Color.hex "#ff4000"
             else Color.hex "#8000ff" }

/-- The function `createObstacle`. -/
def createObstacle (W : ℚ) (s : GameState) : GameState :=
  let (r, s) := mathRandom s
  let i : Int := Int.floor (r * (types.length : ℚ))
  let type : Option ObstacleType := if i < 0 then none else types[i.toNat]?
  { s with obstacles := s.obstacles ++ [newObstacle W type] }

/-- The function `createCoin`. -/
def createCoin (W : ℚ) (s : GameState) : GameState :=
  let (r, s) := mathRandom s
  { s with coins := s.coins ++
      [({ x := W, y := r * 100 + 150, size := 15, rotation := 0, collected := false } : Coin)] }

/-- The object literal pushed by `createParticles`, given the three random
numbers it draws. -/
def newParticle (x y : ℚ) (color : Color) (r1 r2 r3 : ℚ) : Particle :=
  { x := x
    y := y
    vx := (r1 - 1 / 2) * 8
    vy := r2 * (-8) - 2
    life := 60
    maxLife := 60
    color := color
    size := r3 * 4 + 2 }

/-- The function `createParticles(x, y, color, count)`: `count` particles are pushed,
each drawing three random numbers (for `vx`, `vy` and `size`, in this order). -/
def createParticles (x y : ℚ) (color : Color) : Nat → GameState → GameState
  | 0, s => s
  | n + 1, s =>
    let (r1, s) := mathRandom s
    let (r2, s) := mathRandom s
    let (r3, s) := mathRandom s
    createParticles x y color n
      { s with particles := s.particles ++ [newParticle x y color r1 r2 r3] }

/-! ## Update stage -/

/-- The function `updatePlayer`. -/
def updatePlayer (s : GameState) : GameState :=
  let p : Player := s.player
  let p : Player := if !p.onGround then { p with velocityY := p.velocityY + gravity } else p
  let p : Player := { p with y := p.y + p.velocityY }
  let p : Player :=
    if p.y ≥ groundY - p.height then
      { p with y := groundY - p.height, velocityY := 0, onGround := true, jumping := false }
    else
      { p with onGround := false }
  let trail : List TrailPoint := p.trail ++
    [({ x := p.x + p.width / 2, y := p.y + p.height / 2, life := 20 } : TrailPoint)]
  let trail : List TrailPoint := if trail.length > 10 then trail.tail else trail
  let trail : List TrailPoint := trail.map fun point => { point with life := point.life - 1 }
  let trail : List TrailPoint := trail.filter fun point => point.life > 0
  let p : Player := { p with trail := trail }
  { s with player := p }

/-- The callback of `updateObstacles`: the visited obstacle (the object at
`index`) moves left, and once fully off-screen it is spliced out and scored. -/
def updateObstaclesCb (obstacle : Obstacle) (index : Nat) (s : GameState) : GameState :=
  let obstacle : Obstacle := { obstacle with x := obstacle.x - gameSpeed * s.speedMultiplier }
  let s : GameState := { s with obstacles := s.obstacles.set index obstacle }
  if obstacle.x + obstacle.width < 0 then
    { s with obstacles := s.obstacles.eraseIdx index, score := s.score + 10 }
  else s

/-- The function `updateObstacles`. -/
def updateObstacles (s : GameState) : GameState :=
  forEach (fun s => s.obstacles) updateObstaclesCb s

/-- The strict box test of `updateCoins` between a coin and the player. -/
def coinHitsPlayer (coin : Coin) (player : Player) : Bool :=
  decide (coin.x < player.x + player.width) && decide (coin.x + coin.size > player.x) &&
  decide (coin.y < player.y + player.height) && decide (coin.y + coin.size > player.y)

/-- The callback of `updateCoins`. -/
def updateCoinsCb (coin : Coin) (index : Nat) (s : GameState) : GameState :=
  let coin : Coin := { coin with x := coin.x - gameSpeed * s.speedMultiplier }
  let coin : Coin := { coin with rotation := coin.rotation + 1 / 10 }
  let s : GameState := { s with coins := s.coins.set index coin }
  if coin.x + coin.size < 0 then
    { s with coins := s.coins.eraseIdx index }
  else if !coin.collected && coinHitsPlayer coin s.player then
    let coin : Coin := { coin with collected := true }
    let s : GameState := { s with coins := s.coins.set index coin }
    let s : GameState := { s with score := s.score + 50 }
    let s : GameState := createParticles (coin.x + coin.size / 2) (coin.y + coin.size / 2)
      (Color.hex "#ffff00") 8 s
    { s with coins := s.coins.eraseIdx index }
  else s

/-- The function `updateCoins`. -/
def updateCoins (s : GameState) : GameState :=
  forEach (fun s => s.coins) updateCoinsCb s

/-- The callback of the `buildings.forEach` of `updateBackground`. -/
def updateBuildingsCb (W : ℚ) (building : Building) (index : Nat) (s : GameState) : GameState :=
  let building : Building :=
    { building with x := building.x - gameSpeed * s.speedMultiplier * (3 / 10) }
  if building.x + building.width < 0 then
    let building : Building := { building with x := W }
    let (r1, s) := mathRandom s
    let building : Building := { building with height := r1 * 150 + 100 }
    let (r2, s) := mathRandom s
    let building : Building := { building with color := Color.hsl (r2 * 360) }
    { s with buildings := s.buildings.set index building }
  else
    { s with buildings := s.buildings.set index building }

/-- The callback of the `clouds.forEach` of `updateBackground`. -/
def updateCloudsCb (W : ℚ) (cloud : Cloud) (index : Nat) (s : GameState) : GameState :=
  let cloud : Cloud := { cloud with x := cloud.x - cloud.speed }
  let cloud : Cloud := if cloud.x + cloud.size < 0 then { cloud with x := W } else cloud
  { s with clouds := s.clouds.set index cloud }

/-- The function `updateBackground`. -/
def updateBackground (W : ℚ) (s : GameState) : GameState :=
  let s : GameState := forEach (fun s => s.buildings) (updateBuildingsCb W) s
  forEach (fun s => s.clouds) (updateCloudsCb W) s

/-- The callback of `updateParticles`. -/
def updateParticlesCb (particle : Particle) (index : Nat) (s : GameState) : GameState :=
  let particle : Particle := { particle with x := particle.x + particle.vx }
  let particle : Particle := { particle with y := particle.y + particle.vy }
  let particle : Particle := { particle with vy := particle.vy + 3 / 10 }
  let particle : Particle := { particle with life := particle.life - 1 }
  let s : GameState := { s with particles := s.particles.set index particle }
  if particle.life ≤ 0 then
    { s with particles := s.particles.eraseIdx index }
  else s

/-- The function `updateParticles`. -/
def updateParticles (s : GameState) : GameState :=
  forEach (fun s => s.particles) updateParticlesCb s

/-! ## Collision stage -/

/-- An axis-aligned box. -/
structure Box where
  x : ℚ
  y : ℚ
  width : ℚ
  height : ℚ
  deriving DecidableEq, Repr

/-- The box of the player. -/
def Player.box (p : Player) : Box :=
  { x := p.x, y := p.y, width := p.width, height := p.height }

/-- The box of an obstacle. -/
def Obstacle.box (o : Obstacle) : Box :=
  { x := o.x, y := o.y, width := o.width, height := o.height }

/-- The box-overlap test of `checkCollisions`, with `a` in the place of the
player and `b` in the place of the obstacle. -/
def overlap (a b : Box) : Bool :=
  decide (a.x < b.x + b.width) && decide (a.x + a.width > b.x) &&
  decide (a.y < b.y + b.height) && decide (a.y + a.height > b.y)

/-- The callback of `checkCollisions`. -/
def checkCollisionsCb (obstacle : Obstacle) (_index : Nat) (s : GameState) : GameState :=
  if overlap s.player.box obstacle.box then
    let s : GameState := createParticles (s.player.x + s.player.width / 2)
      (s.player.y + s.player.height / 2) (Color.hex "#ff0000") 15 s
    { s with gameRunning := false }
  else s

/-- The function `checkCollisions`. -/
def checkCollisions (s : GameState) : GameState :=
  forEach (fun s => s.obstacles) checkCollisionsCb s

/-! ## Loop driver -/

/-- One call of `gameLoop`, that is one tick (the next one is scheduled by
`requestAnimationFrame`). -/
def gameLoop (W : ℚ) (s : GameState) : GameState :=
  if !s.gameRunning then s
  else
    let s : GameState := { s with speedMultiplier := 1 + s.distance / 1000 }
    let s : GameState :=
      { s with distance := s.distance + gameSpeed * s.speedMultiplier * (1 / 10) }
    let (r, s) := mathRandom s
    let s : GameState := if r < 8 / 1000 then createObstacle W s else s
    let (r, s) := mathRandom s
    let s : GameState := if r < 15 / 1000 then createCoin W s else s
    let s : GameState := updatePlayer s
    let s : GameState := updateObstacles s
    let s : GameState := updateCoins s
    let s : GameState := updateBackground W s
    let s : GameState := updateParticles s
    checkCollisions s

/-- The function `jump`. -/
def jump (s : GameState) : GameState :=
  if s.player.onGround && s.gameRunning then
    { s with player :=
        { s.player with velocityY := jumpPower, jumping := true, onGround := false } }
  else s

/-- The function `window.startGame`. -/
def startGame (W : ℚ) (s : GameState) : GameState :=
  gameLoop W { s with gameRunning := true, gameStarted := true }

/-- The assignments of `window.restartGame`, up to (not including) its final
call of `gameLoop`. -/
def restartReset (s : GameState) : GameState :=
  { s with
    gameRunning := true
    score := 0
    distance := 0
    speedMultiplier := 1
    player := { s.player with
      x := 100, y := 300, velocityY := 0, jumping := false, onGround := true, trail := [] }
    obstacles := []
    coins := []
    particles := [] }

/-- The function `window.restartGame`: the resets, then one call of `gameLoop`. -/
def restartGame (W : ℚ) (s : GameState) : GameState :=
  gameLoop W (restartReset s)

/-- The first two assignments of `gameLoop`: the speed multiplier is recomputed
from the distance, then the distance advances. -/
def advanceDistance (s : GameState) : GameState :=
  let s : GameState := { s with speedMultiplier := 1 + s.distance / 1000 }
  { s with distance := s.distance + gameSpeed * s.speedMultiplier * (1 / 10) }

/-- The two spawning lines of `gameLoop`. -/
def spawnStep (W : ℚ) (s : GameState) : GameState :=
  let (r, s) := mathRandom s
  let s : GameState := if r < 8 / 1000 then createObstacle W s else s
  let (r, s) := mathRandom s
  if r < 15 / 1000 then createCoin W s else s

/-- The fields of the state that the background stage leaves alone. The random
stream may be consumed: every value still to come was already to come. -/
def SameButBackground (a b : GameState) : Prop :=
  b.gameRunning = a.gameRunning ∧ b.gameStarted = a.gameStarted ∧ b.score = a.score ∧
  b.distance = a.distance ∧ b.speedMultiplier = a.speedMultiplier ∧
  b.obstacles = a.obstacles ∧ b.coins = a.coins ∧ b.particles = a.particles ∧
  b.player = a.player ∧ ∀ i, ∃ j, b.random i = a.random j

/-- The fields of the state that the particle stage leaves alone. -/
def SameButParticles (a b : GameState) : Prop :=
  b.gameRunning = a.gameRunning ∧ b.gameStarted = a.gameStarted ∧ b.score = a.score ∧
  b.distance = a.distance ∧ b.speedMultiplier = a.speedMultiplier ∧
  b.obstacles = a.obstacles ∧ b.coins = a.coins ∧ b.buildings = a.buildings ∧
  b.clouds = a.clouds ∧ b.player = a.player ∧ b.random = a.random

/-! ## Runs -/

/-- The states of a run: the state left by the resets of `restartGame` (for a
player of the script's size, 30 by 40), and every state reached from it by
calls of `jump` and ticks, in any order. -/
inductive Reachable (W : ℚ) : GameState → Prop
  | restart (s : GameState) (hw : s.player.width = 30) (hh : s.player.height = 40) :
      Reachable W (restartReset s)
  | jump (s : GameState) (h : Reachable W s) : Reachable W (jump s)
  | tick (s : GameState) (h : Reachable W s) : Reachable W (gameLoop W s)

/-- The shape of the player during a run: of height 40, and either standing on
the ground line at rest, or in the air with the velocity of some number `n` of
gravity steps after a jump. -/
def PlayerInv (p : Player) : Prop :=
  p.height = 40 ∧
  ((p.onGround = true ∧ p.velocityY = 0 ∧ p.y = 300) ∨
   (p.onGround = false ∧ ∃ n : Nat, p.velocityY = jumpPower + gravity * n))

/-- The player standing at rest on the ground line, with the position and size
the script gives it. -/
def PlayerGrounded (p : Player) : Prop :=
  p.x = 100 ∧ p.y = 300 ∧ p.width = 30 ∧ p.height = 40 ∧ p.velocityY = 0 ∧ p.onGround = true

/-- A run in which one wall, the only obstacle, is still to the right of the
player: no score yet, no coins, no particles, the player on the ground, no
spawn to come (every random number is at least 0.015), and the wall has
travelled ten times the distance from its spawning place `x = W`. -/
def WallAhead (W : ℚ) (s : GameState) : Prop :=
  s.gameRunning = true ∧ s.score = 0 ∧
  (∃ o : Obstacle, s.obstacles = [o] ∧ o.width = 20 ∧ o.y = 310 ∧ o.height = 30 ∧
    o.x = W - 10 * s.distance ∧ 130 ≤ o.x) ∧
  s.coins = [] ∧ s.particles = [] ∧ PlayerGrounded s.player ∧ 0 ≤ s.distance ∧
  ∀ i, (15 : ℚ) / 1000 ≤ s.random i

/-- A run that has ended with the score still 0 and its one obstacle still in
the store, its right edge not past `x = 0`. -/
def Crashed (s : GameState) : Prop :=
  s.gameRunning = false ∧ s.score = 0 ∧ ∃ o : Obstacle, s.obstacles = [o] ∧ 0 ≤ o.x + o.width

/-- The restart state with a single wall placed at `x = W`, the obstacle that
`createObstacle` makes for the type `wall`. -/
def wallRunStart (W : ℚ) (s : GameState) : GameState :=
  { restartReset s with obstacles := [newObstacle W (some ObstacleType.wall)] }

/-- The `player` object as the script creates it. -/
def initialPlayer : Player :=
  { x := 100
    y := 300
    width := 30
    height := 40
    velocityY := 0
    jumping := false
    onGround := true
    color := Color.hex "#00ffff"
    trail := [] }

/-- The globals as the script declares them (before `initBackground` fills the
background arrays), for a given stream of random numbers. -/
def initialState (rnd : Nat → ℚ) : GameState :=
  { gameRunning := false
    gameStarted := false
    score := 0
    distance := 0
    speedMultiplier := 1
    obstacles := []
    coins := []
    particles := []
    buildings := []
    clouds := []
    player := initialPlayer
    random := rnd }

/-- A running state with the player on the ground, all stores empty. -/
def runningState : GameState :=
  { initialState (fun _ => 1 / 2) with gameRunning := true, gameStarted := true }

/-- A wall-sized obstacle standing at `x`. -/
def wallAt (x : ℚ) : Obstacle := newObstacle x (some ObstacleType.wall)

/-- A fresh coin at `(x, y)`. -/
def coinAt (x y : ℚ) : Coin :=
  { x := x, y := y, size := 15, rotation := 0, collected := false }

/-- A running state whose only obstacle is a wall exactly touching the player's
right edge. -/
def touchingState : GameState :=
  { runningState with obstacles := [wallAt 130] }

/-- A running state whose only obstacle is a wall inside the player's box. -/
def hitState : GameState :=
  { runningState with obstacles := [wallAt 110] }

/-- A running state whose only coin will be, after one move to the left, inside
the player's box. -/
def coinState : GameState :=
  { runningState with coins := [coinAt 112 310] }

/-- A running state whose player is in the air just above the ground line,
falling. -/
def fallingState : GameState :=
  { runningState with
    player := { initialPlayer with y := 298, velocityY := 7, onGround := false } }

/-- A game that has ended on a wall, with some score and distance, and one
building and one cloud in the background. -/
def endedState : GameState :=
  { runningState with
    gameRunning := false
    score := 120
    distance := 57
    speedMultiplier := 1057 / 1000
    obstacles := [wallAt 110]
    buildings := [{ x := 0, y := 100, width := 100, height := 150, color := Color.hsl 0 }]
    clouds := [{ x := 50, y := 40, size := 30, speed := 1 / 2 }] }

/-- The stored speed multiplier is not ahead of the stored distance, or the run
has stopped (and then neither changes any more). -/
def SpeedLags (s : GameState) : Prop :=
  0 ≤ s.distance ∧ (s.gameRunning = false ∨ s.speedMultiplier ≤ 1 + s.distance / 1000)

/-- A running state with two walls: the first leaves the screen on the next
move to the left, the second stands at `x = 50`. -/
def wallPairState : GameState :=
  { runningState with obstacles := [wallAt (-19), wallAt 50] }

/-- A running state with two coins: the first leaves the screen on the next
move to the left, the second stands at `x = 50`. -/
def coinPairState : GameState :=
  { runningState with coins := [coinAt (-14) 200, coinAt 50 200] }

/-- The spawn and update stages of a tick: everything `gameLoop` does in a
running game before it calls `checkCollisions`. -/
def beforeCollisions (W : ℚ) (s : GameState) : GameState :=
  updateParticles (updateBackground W (updateCoins (updateObstacles (updatePlayer
    (spawnStep W (advanceDistance s))))))

/-- A running state with two walls inside the player's box. -/
def doubleHitState : GameState :=
  { runningState with obstacles := [wallAt 110, wallAt 115] }

/-- A pit as `createObstacle` makes it on a canvas of width `W`, after it has
scrolled to `x`. -/
def pitAt (W x : ℚ) : Obstacle :=
  { newObstacle W (some ObstacleType.pit) with x := x }

/-- A running state whose only obstacle is a pit under the player. -/
def pitState : GameState :=
  { runningState with obstacles := [pitAt 800 100] }

/-- One call of `updateParticles` seen on the lives of the particles alone, in
the words of the specification: every visited particle loses one life and is
removed when none is left, and the particle that followed a removed one is
passed over, kept as it is. -/
def lifeSkip : List Int → List Int
  | [] => []
  | l :: rest =>
    if l - 1 ≤ 0 then
      match rest with
      | [] => []
      | m :: rest' => m :: lifeSkip rest'
    else (l - 1) :: lifeSkip rest

/-- A state whose particle store is one burst of 8 particles. -/
def burstState : GameState :=
  createParticles 112 320 (Color.hex "#ffff00") 8 runningState

/-- A particle at the end of its life. -/
def dyingParticle : Particle :=
  { newParticle 0 0 (Color.hex "#ff0000") 0 0 0 with life := 1 }

/-- A particle with most of its life left. -/
def freshParticle : Particle :=
  { newParticle 5 5 (Color.hex "#ff0000") 0 0 0 with life := 40 }

/-- A running state with two particles, the first at the end of its life. -/
def dyingState : GameState :=
  { runningState with particles := [dyingParticle, freshParticle] }

/-- The player during a run, with its height along the jump: of height 40, and
either standing on the ground line at rest, or in the air `n` gravity steps
after a jump, with the velocity and the height of the closed form. -/
def OnTrajectory (p : Player) : Prop :=
  p.height = 40 ∧
  ((p.onGround = true ∧ p.velocityY = 0 ∧ p.y = 300) ∨
   (p.onGround = false ∧ ∃ n : Nat, p.velocityY = -15 + 4 / 5 * n ∧
      p.y = 300 - 15 * n + 2 / 5 * n * (n + 1)))

/-- A running state whose next random number is 0: the coin it spawns is at the
top of the band. -/
def highCoinState : GameState :=
  { runningState with random := fun _ => 0 }

/-! ## Player physics in IEEE 754 doubles

The numbers of JavaScript are IEEE 754 doubles, and every addition rounds its
result to 53 significant bits. The exact rationals of the model above leave
the rounding out. For the claim that states exact values along a jump, the
physics lines of `updatePlayer` and `jump` are embedded a second time with the
rounding in. A double `x` is written here as the whole number `x * 2^60`:
every double that the jump arithmetic meets is 0 or at least `2^-7` in size,
so it is a whole number of units of `2^-60`. -/

/-- The unit of the fixed-point writing of doubles: the double `x` is written
as the integer `x * 2^60`, so `unitIEEE` is the double 1. -/
def unitIEEE : Int := 2 ^ 60

/-- The number of bits of `a` beyond 53: the least `k` with `a / 2^k < 2^53`,
found by halving. The first argument bounds the number of halvings; `a` itself
is always enough. -/
def excessBits : Nat → Nat → Nat
  | 0, _ => 0
  | fuel + 1, a => if a < 2 ^ 53 then 0 else excessBits fuel (a / 2) + 1

/-- Rounding to the nearest double, ties to even, of an exact value given in
units of `2^-60`: a value of at most 53 bits is a double already; a longer one
keeps its 53 leading bits, rounded to nearest, a tie going to the even
neighbour. -/
def roundDouble (m : Int) : Int :=
  let a : Nat := m.natAbs
  if a < 2 ^ 53 then m
  else
    let shift : Nat := excessBits a a
    let q : Nat := a / 2 ^ shift
    let r : Nat := a % 2 ^ shift
    let half : Nat := 2 ^ (shift - 1)
    let up : Bool := decide (half < r) || (decide (r = half) && decide (q % 2 = 1))
    m.sign * (((if up then q + 1 else q) * 2 ^ shift : Nat) : Int)

/-- The addition of two doubles: the exact sum, rounded. -/
def addIEEE (a b : Int) : Int := roundDouble (a + b)

/-- The double of the literal `0.8` in `const gravity = 0.8`: the nearest double
to 0.8 is `7205759403792794 * 2^-53`. -/
def gravityIEEE : Int := 7205759403792794 * 2 ^ 7

/-- The double of the literal `166.8`: the nearest double to 166.8 is
`5868753264417178 * 2^-45`. -/
def apexIEEE : Int := 5868753264417178 * 2 ^ 15

/-- The fields of `player` that the physics of `updatePlayer` reads and writes,
as doubles. The height is the script's constant 40. -/
structure PlayerIEEE where
  y : Int
  velocityY : Int
  onGround : Bool
  deriving DecidableEq, Repr

/-- The physics lines of `updatePlayer`, with each `+=` rounded as the double
addition it is; `groundY - player.height` is `340 - 40 = 300`, exact. -/
def updatePlayerIEEE (p : PlayerIEEE) : PlayerIEEE :=
  let p : PlayerIEEE :=
    if !p.onGround then { p with velocityY := addIEEE p.velocityY gravityIEEE } else p
  let p : PlayerIEEE := { p with y := addIEEE p.y p.velocityY }
  if p.y ≥ 300 * unitIEEE then
    { p with y := 300 * unitIEEE, velocityY := 0, onGround := true }
  else
    { p with onGround := false }

/-- The function `jump` on the physics fields, for the value `gameRunning` of
the running flag: `jumpPower = -15` is a double. -/
def jumpIEEE (gameRunning : Bool) (p : PlayerIEEE) : PlayerIEEE :=
  if p.onGround && gameRunning then
    { p with velocityY := -15 * unitIEEE, onGround := false }
  else p

/-- The player of the restart state: `y = 300`, `velocityY = 0`, on the ground. -/
def groundedIEEE : PlayerIEEE :=
  { y := 300 * unitIEEE, velocityY := 0, onGround := true }

/-- The player states of a run in doubles: the restart state, and every state
reached from it by calls of `jump`, in a running or a stopped game, and of
`updatePlayer`, in any order. -/
inductive ReachableIEEE : PlayerIEEE → Prop
  | restart : ReachableIEEE groundedIEEE
  | jump (g : Bool) (p : PlayerIEEE) (h : ReachableIEEE p) : ReachableIEEE (jumpIEEE g p)
  | tick (p : PlayerIEEE) (h : ReachableIEEE p) : ReachableIEEE (updatePlayerIEEE p)

/-! ## General lemmas -/

/-- A reflexive and transitive relation that every callback step satisfies
holds between the state before and the state after a `forEach` loop. -/
theorem forEachFrom_rel {α : Type} (arr : GameState → List α)
    (cb : α → Nat → GameState → GameState) (R : GameState → GameState → Prop)
    (hrefl : ∀ s, R s s) (htrans : ∀ a b c, R a b → R b c → R a c)
    (hstep : ∀ a k s, (arr s)[k]? = some a → R s (cb a k s)) :
    ∀ n k s, R s (forEachFrom arr cb n k s) := by
  intro n
  induction n with
  | zero => intro k s; exact hrefl s
  | succ n ih =>
    intro k s
    unfold forEachFrom
    cases h : (arr s)[k]? with
    | none => exact ih (k + 1) s
    | some a => exact htrans _ _ _ (hstep a k s h) (ih (k + 1) (cb a k s))

/-- What `createParticles` does: it appends `count` particles, all at `(x, y)`
with life 60 and the given colour, and consumes random numbers; nothing else
changes. -/
theorem createParticles_spec (x y : ℚ) (color : Color) (count : Nat) (s : GameState) :
    ∃ (burst : List Particle) (rnd : Nat → ℚ),
      burst.length = count ∧
      (∀ q ∈ burst, q.x = x ∧ q.y = y ∧ q.life = 60 ∧ q.maxLife = 60 ∧ q.color = color) ∧
      createParticles x y color count s
        = { s with particles := s.particles ++ burst, random := rnd } := by
  induction count generalizing s with
  | zero => exact ⟨[], s.random, rfl, by simp, by simp [createParticles]⟩
  | succ n ih =>
    simp only [createParticles, mathRandom]
    obtain ⟨burst, rnd, hlen, hall, heq⟩ := ih
      { s with
        random := fun i => s.random (i + 1 + 1 + 1)
        particles := s.particles ++
          [newParticle x y color (s.random 0) (s.random (0 + 1)) (s.random (0 + 1 + 1))] }
    refine ⟨newParticle x y color (s.random 0) (s.random (0 + 1)) (s.random (0 + 1 + 1)) :: burst,
      rnd, by simp [hlen], ?_, ?_⟩
    · intro q hq
      rcases List.mem_cons.1 hq with rfl | hq
      · simp [newParticle]
      · exact hall q hq
    · rw [heq]
      simp

/-- The box of `wallAt x`. -/
@[simp] theorem wallAt_x (x : ℚ) : (wallAt x).x = x := rfl

/-- A wall stands 30 above the ground line. -/
@[simp] theorem wallAt_y (x : ℚ) : (wallAt x).y = 310 := by
  simp [wallAt, newObstacle, groundY]; norm_num

/-- A wall is 20 wide. -/
@[simp] theorem wallAt_width (x : ℚ) : (wallAt x).width = 20 := by
  simp [wallAt, newObstacle]

/-- A wall is 30 high. -/
@[simp] theorem wallAt_height (x : ℚ) : (wallAt x).height = 30 := by
  simp [wallAt, newObstacle]

/-- A `forEach` over an empty array does nothing. -/
theorem forEach_nil {α : Type} (arr : GameState → List α)
    (cb : α → Nat → GameState → GameState) (s : GameState) (h : arr s = []) :
    forEach arr cb s = s := by
  unfold forEach
  rw [h]
  rfl

/-- A `forEach` over an array of one element calls the callback once, at index 0. -/
theorem forEach_singleton {α : Type} (arr : GameState → List α)
    (cb : α → Nat → GameState → GameState) (s : GameState) (a : α) (h : arr s = [a]) :
    forEach arr cb s = cb a 0 s := by
  unfold forEach
  rw [h]
  simp only [List.length_singleton, forEachFrom, h, List.getElem?_cons_zero]


/-! ## The collision stage as a fold -/

/-- A `forEach` whose callback ignores the index and leaves the array alone
visits the elements from index `k` on, in order, each once. -/
theorem forEachFrom_eq_foldl {α : Type} (arr : GameState → List α)
    (cb : α → Nat → GameState → GameState)
    (hidx : ∀ a k s, cb a k s = cb a 0 s) (hpres : ∀ a k s, arr (cb a k s) = arr s) :
    ∀ n k s, forEachFrom arr cb n k s
      = (((arr s).drop k).take n).foldl (fun s a => cb a 0 s) s := by
  intro n
  induction n with
  | zero => intro k s; simp [forEachFrom]
  | succ n ih =>
    intro k s
    unfold forEachFrom
    cases h : (arr s)[k]? with
    | none =>
      have hk : (arr s).length ≤ k := by
        by_contra hlt
        rw [List.getElem?_eq_getElem (by omega)] at h
        cases h
      simp only []
      rw [ih (k + 1) s, List.drop_eq_nil_of_le hk, List.drop_eq_nil_of_le (by omega)]
      simp
    | some a =>
      obtain ⟨hk, rfl⟩ := List.getElem?_eq_some.1 h
      simp only []
      rw [ih (k + 1), hpres, List.drop_eq_getElem_cons hk, List.take_succ_cons, List.foldl_cons,
        hidx]

/-- A `forEach` whose callback ignores the index and leaves the array alone is
a left fold over the array. -/
theorem forEach_eq_foldl {α : Type} (arr : GameState → List α)
    (cb : α → Nat → GameState → GameState)
    (hidx : ∀ a k s, cb a k s = cb a 0 s) (hpres : ∀ a k s, arr (cb a k s) = arr s)
    (s : GameState) :
    forEach arr cb s = (arr s).foldl (fun s a => cb a 0 s) s := by
  unfold forEach
  rw [forEachFrom_eq_foldl arr cb hidx hpres]
  simp

/-- The callback of `checkCollisions` never touches the obstacle store. -/
theorem checkCollisionsCb_obstacles (o : Obstacle) (k : Nat) (s : GameState) :
    (checkCollisionsCb o k s).obstacles = s.obstacles := by
  unfold checkCollisionsCb
  split
  · obtain ⟨burst, rnd, -, -, heq⟩ := createParticles_spec (s.player.x + s.player.width / 2)
      (s.player.y + s.player.height / 2) (Color.hex "#ff0000") 15 s
    simp only [heq]
  · rfl

/-- Folding the collision callback over a list of obstacles: one burst of 15
particles at the player's centre per overlapping obstacle, and the run flag
cleared as soon as one overlaps. -/
theorem checkCollisions_fold (l : List Obstacle) (s : GameState) :
    ∃ (burst : List Particle) (rnd : Nat → ℚ),
      burst.length = 15 * l.countP (fun o => overlap s.player.box o.box) ∧
      (∀ q ∈ burst, q.x = s.player.x + s.player.width / 2 ∧
        q.y = s.player.y + s.player.height / 2 ∧ q.life = 60) ∧
      l.foldl (fun s o => checkCollisionsCb o 0 s) s
        = { s with
            particles := s.particles ++ burst
            random := rnd
            gameRunning := s.gameRunning && !(l.any fun o => overlap s.player.box o.box) } := by
  induction l generalizing s with
  | nil => exact ⟨[], s.random, by simp, by simp, by simp⟩
  | cons o l ih =>
    rw [List.foldl_cons]
    by_cases ho : overlap s.player.box o.box = true
    · obtain ⟨b1, r1, hlen1, hall1, heq1⟩ := createParticles_spec
        (s.player.x + s.player.width / 2) (s.player.y + s.player.height / 2)
        (Color.hex "#ff0000") 15 s
      have hcb : checkCollisionsCb o 0 s
          = { s with particles := s.particles ++ b1, random := r1, gameRunning := false } := by
        simp only [checkCollisionsCb, ho, if_true, heq1]
      obtain ⟨b2, r2, hlen2, hall2, heq2⟩ := ih (checkCollisionsCb o 0 s)
      rw [heq2, hcb]
      refine ⟨b1 ++ b2, r2, ?_, ?_, ?_⟩
      · rw [hcb] at hlen2
        simp only [List.length_append, hlen1, hlen2, List.countP_cons, ho, if_true]
        ring
      · intro q hq
        rcases List.mem_append.1 hq with hq | hq
        · exact ⟨(hall1 q hq).1, (hall1 q hq).2.1, (hall1 q hq).2.2.1⟩
        · have := hall2 q hq
          rw [hcb] at this
          exact this
      · simp [ho]
    · have hcb : checkCollisionsCb o 0 s = s := by
        simp only [checkCollisionsCb, ho]
        rfl
      obtain ⟨b2, r2, hlen2, hall2, heq2⟩ := ih s
      rw [hcb, heq2]
      refine ⟨b2, r2, ?_, hall2, ?_⟩
      · simp only [hlen2, List.countP_cons, ho]
        simp
      · simp [ho]

/-- The whole effect of `checkCollisions`. -/
theorem checkCollisions_spec (s : GameState) :
    ∃ (burst : List Particle) (rnd : Nat → ℚ),
      burst.length = 15 * s.obstacles.countP (fun o => overlap s.player.box o.box) ∧
      (∀ q ∈ burst, q.x = s.player.x + s.player.width / 2 ∧
        q.y = s.player.y + s.player.height / 2 ∧ q.life = 60) ∧
      checkCollisions s
        = { s with
            particles := s.particles ++ burst
            random := rnd
            gameRunning :=
              s.gameRunning && !(s.obstacles.any fun o => overlap s.player.box o.box) } := by
  unfold checkCollisions
  rw [forEach_eq_foldl (fun s => s.obstacles) checkCollisionsCb (fun _ _ _ => rfl)
    checkCollisionsCb_obstacles]
  exact checkCollisions_fold s.obstacles s

/-- Folding the collision callback over obstacles none of which overlaps the
player changes nothing. -/
theorem checkCollisions_fold_none (l : List Obstacle) (s : GameState)
    (h : ∀ o ∈ l, overlap s.player.box o.box = false) :
    l.foldl (fun s o => checkCollisionsCb o 0 s) s = s := by
  induction l with
  | nil => rfl
  | cons o l ih =>
    have ho : overlap s.player.box o.box = false := h o (List.mem_cons_self o l)
    have hcb : checkCollisionsCb o 0 s = s := by
      simp [checkCollisionsCb, ho]
    rw [List.foldl_cons, hcb]
    exact ih fun q hq => h q (List.mem_cons_of_mem o hq)

/-- Without an overlapping obstacle `checkCollisions` changes nothing. -/
theorem checkCollisions_none (s : GameState)
    (h : ∀ o ∈ s.obstacles, overlap s.player.box o.box = false) : checkCollisions s = s := by
  unfold checkCollisions
  rw [forEach_eq_foldl (fun s => s.obstacles) checkCollisionsCb (fun _ _ _ => rfl)
    checkCollisionsCb_obstacles]
  exact checkCollisions_fold_none s.obstacles s h

/-! ## Scoring in the update stage -/

/-- The effect of `updateObstacles` on the store and the score: some number `n`
of obstacles leaves the store and the score grows by `10 * n`; the coin and
particle stores, the player and the speed are untouched. -/
theorem updateObstacles_effect (s : GameState) :
    ∃ n : Nat, s.obstacles.length = (updateObstacles s).obstacles.length + n ∧
      (updateObstacles s).score = s.score + 10 * (n : Int) ∧
      (updateObstacles s).coins = s.coins ∧
      (updateObstacles s).particles = s.particles ∧
      (updateObstacles s).player = s.player ∧
      (updateObstacles s).speedMultiplier = s.speedMultiplier ∧
      (updateObstacles s).gameRunning = s.gameRunning := by
  unfold updateObstacles forEach
  refine forEachFrom_rel (fun s => s.obstacles) updateObstaclesCb
    (fun a b => ∃ n : Nat, a.obstacles.length = b.obstacles.length + n ∧
      b.score = a.score + 10 * (n : Int) ∧ b.coins = a.coins ∧ b.particles = a.particles ∧
      b.player = a.player ∧ b.speedMultiplier = a.speedMultiplier ∧
      b.gameRunning = a.gameRunning) ?_ ?_ ?_ _ _ s
  · intro a
    exact ⟨0, by simp⟩
  · rintro a b c ⟨n, h1, h2, h3, h4, h5, h6, h7⟩ ⟨m, g1, g2, g3, g4, g5, g6, g7⟩
    refine ⟨m + n, by omega, ?_, g3.trans h3, g4.trans h4, g5.trans h5, g6.trans h6,
      g7.trans h7⟩
    rw [g2, h2]; push_cast; ring
  · intro o k a h
    have hk : k < a.obstacles.length := (List.getElem?_eq_some.1 h).1
    unfold updateObstaclesCb
    simp only []
    split
    · refine ⟨1, ?_, by simp, rfl, rfl, rfl, rfl, rfl⟩
      simp only [List.length_eraseIdx, List.length_set, hk, if_true]
      omega
    · exact ⟨0, by simp, by simp, rfl, rfl, rfl, rfl, rfl⟩

/-- The effect of `updateCoins` on the stores and the score: `nCol` coins leave
the store by collection, each adding 50 to the score and 8 particles, and
`nOff` coins leave it for being off-screen, adding nothing. -/
theorem updateCoins_effect (s : GameState) :
    ∃ nCol nOff : Nat, s.coins.length = (updateCoins s).coins.length + nCol + nOff ∧
      (updateCoins s).particles.length = s.particles.length + 8 * nCol ∧
      (updateCoins s).score = s.score + 50 * (nCol : Int) ∧
      (updateCoins s).obstacles = s.obstacles ∧
      (updateCoins s).player = s.player ∧
      (updateCoins s).gameRunning = s.gameRunning := by
  unfold updateCoins forEach
  refine forEachFrom_rel (fun s => s.coins) updateCoinsCb
    (fun a b => ∃ nCol nOff : Nat, a.coins.length = b.coins.length + nCol + nOff ∧
      b.particles.length = a.particles.length + 8 * nCol ∧
      b.score = a.score + 50 * (nCol : Int) ∧ b.obstacles = a.obstacles ∧
      b.player = a.player ∧ b.gameRunning = a.gameRunning) ?_ ?_ ?_ _ _ s
  · intro a
    exact ⟨0, 0, by simp⟩
  · rintro a b c ⟨n, f, h1, h2, h3, h4, h5, h6⟩ ⟨m, g, g1, g2, g3, g4, g5, g6⟩
    refine ⟨m + n, g + f, by omega, by omega, ?_, g4.trans h4, g5.trans h5, g6.trans h6⟩
    rw [g3, h3]; push_cast; ring
  · intro c k a h
    have hk : k < a.coins.length := (List.getElem?_eq_some.1 h).1
    unfold updateCoinsCb
    simp only []
    split
    · refine ⟨0, 1, ?_, by simp, by simp, rfl, rfl, rfl⟩
      simp only [List.length_eraseIdx, List.length_set, hk, if_true]
      omega
    · split
      · obtain ⟨burst, rnd, hlen, -, heq⟩ := createParticles_spec
          (c.x - gameSpeed * a.speedMultiplier + c.size / 2) (c.y + c.size / 2)
          (Color.hex "#ffff00") 8
          { a with
            coins := (a.coins.set k
              { c with x := c.x - gameSpeed * a.speedMultiplier,
                       rotation := c.rotation + 1 / 10 }).set k
              { c with x := c.x - gameSpeed * a.speedMultiplier,
                       rotation := c.rotation + 1 / 10, collected := true }
            score := a.score + 50 }
        rw [heq]
        refine ⟨1, 0, ?_, by simp [hlen], by simp, rfl, rfl, rfl⟩
        simp only [List.length_eraseIdx, List.length_set, hk, if_true]
        omega
      · exact ⟨0, 0, by simp, by simp, by simp, rfl, rfl, rfl⟩

/-- Claim C1. One tick's update stage (`updateObstacles`, then `updateCoins`)
changes the score by exactly 10 times the number `nObs` of obstacles removed
by `updateObstacles` plus 50 times the number `nCol` of coins removed by
collection (each collection is the one event that appends 8 particles); the
`nOff` coins removed for being off-screen add nothing, and the score never
decreases. -/
theorem update_stage_score (s : GameState) :
    ∃ nObs nCol nOff : Nat,
      s.obstacles.length = (updateObstacles s).obstacles.length + nObs ∧
      (updateCoins (updateObstacles s)).obstacles = (updateObstacles s).obstacles ∧
      (updateObstacles s).coins = s.coins ∧
      s.coins.length = (updateCoins (updateObstacles s)).coins.length + nCol + nOff ∧
      (updateCoins (updateObstacles s)).particles.length = s.particles.length + 8 * nCol ∧
      (updateCoins (updateObstacles s)).score
        = s.score + 10 * (nObs : Int) + 50 * (nCol : Int) ∧
      s.score ≤ (updateCoins (updateObstacles s)).score := by
  obtain ⟨n, h1, h2, h3, h4, -, -, -⟩ := updateObstacles_effect s
  obtain ⟨nCol, nOff, g1, g2, g3, g4, -, -⟩ := updateCoins_effect (updateObstacles s)
  refine ⟨n, nCol, nOff, h1, g4, h3, ?_, ?_, ?_, ?_⟩
  · rw [← h3]; exact g1
  · rw [g2, h4]
  · rw [g3, h2]
  · rw [g3, h2]; omega

/-! ## The stages of a tick -/

/-- A call of `gameLoop` while the run is stopped returns at once. -/
theorem gameLoop_stopped (W : ℚ) (s : GameState) (h : s.gameRunning = false) :
    gameLoop W s = s := by
  simp [gameLoop, h]

/-- A call of `gameLoop` during a run is the chain of its stages. -/
theorem gameLoop_running (W : ℚ) (s : GameState) (h : s.gameRunning = true) :
    gameLoop W s = checkCollisions (updateParticles (updateBackground W (updateCoins
      (updateObstacles (updatePlayer (spawnStep W (advanceDistance s))))))) := by
  simp [gameLoop, h, spawnStep, advanceDistance]

/-- The background stage only touches the buildings, the clouds and the random
stream. -/
theorem updateBackground_frame (W : ℚ) (s : GameState) :
    SameButBackground s (updateBackground W s) := by
  have hrefl : ∀ s, SameButBackground s s := fun s =>
    ⟨rfl, rfl, rfl, rfl, rfl, rfl, rfl, rfl, rfl, fun i => ⟨i, rfl⟩⟩
  have htrans : ∀ a b c, SameButBackground a b → SameButBackground b c →
      SameButBackground a c := by
    rintro a b c ⟨h1, h2, h3, h4, h5, h6, h7, h8, h9, h10⟩ ⟨g1, g2, g3, g4, g5, g6, g7, g8, g9, g10⟩
    refine ⟨g1.trans h1, g2.trans h2, g3.trans h3, g4.trans h4, g5.trans h5, g6.trans h6,
      g7.trans h7, g8.trans h8, g9.trans h9, fun i => ?_⟩
    obtain ⟨j, hj⟩ := g10 i
    obtain ⟨k, hk⟩ := h10 j
    exact ⟨k, hj.trans hk⟩
  unfold updateBackground
  refine htrans _ _ _
    (forEachFrom_rel (fun s => s.buildings) (updateBuildingsCb W) SameButBackground hrefl htrans
      ?_ _ _ s)
    (forEachFrom_rel (fun s => s.clouds) (updateCloudsCb W) SameButBackground hrefl htrans
      ?_ _ _ _)
  · intro b k a _
    unfold updateBuildingsCb
    simp only [mathRandom]
    split
    · exact ⟨rfl, rfl, rfl, rfl, rfl, rfl, rfl, rfl, rfl, fun i => ⟨i + 1 + 1, rfl⟩⟩
    · exact hrefl _
  · intro c k a _
    exact ⟨rfl, rfl, rfl, rfl, rfl, rfl, rfl, rfl, rfl, fun i => ⟨i, rfl⟩⟩

/-- The particle stage only touches the particle store. -/
theorem updateParticles_frame (s : GameState) : SameButParticles s (updateParticles s) := by
  unfold updateParticles forEach
  refine forEachFrom_rel (fun s => s.particles) updateParticlesCb SameButParticles
    (fun s => ⟨rfl, rfl, rfl, rfl, rfl, rfl, rfl, rfl, rfl, rfl, rfl⟩) ?_ ?_ _ _ s
  · rintro a b c ⟨h1, h2, h3, h4, h5, h6, h7, h8, h9, h10, h11⟩
      ⟨g1, g2, g3, g4, g5, g6, g7, g8, g9, g10, g11⟩
    exact ⟨g1.trans h1, g2.trans h2, g3.trans h3, g4.trans h4, g5.trans h5, g6.trans h6,
      g7.trans h7, g8.trans h8, g9.trans h9, g10.trans h10, g11.trans h11⟩
  · intro q k a _
    unfold updateParticlesCb
    simp only []
    split <;> exact ⟨rfl, rfl, rfl, rfl, rfl, rfl, rfl, rfl, rfl, rfl, rfl⟩

/-- The scrolling stages (`updateObstacles`, `updateCoins`) leave the player, the
distance and the speed multiplier alone. -/
theorem scroll_frame (s : GameState) :
    ((updateObstacles s).player = s.player ∧ (updateObstacles s).distance = s.distance ∧
      (updateObstacles s).speedMultiplier = s.speedMultiplier) ∧
    ((updateCoins s).player = s.player ∧ (updateCoins s).distance = s.distance ∧
      (updateCoins s).speedMultiplier = s.speedMultiplier) := by
  have htrans : ∀ a b c : GameState,
      (b.player = a.player ∧ b.distance = a.distance ∧ b.speedMultiplier = a.speedMultiplier) →
      (c.player = b.player ∧ c.distance = b.distance ∧ c.speedMultiplier = b.speedMultiplier) →
      (c.player = a.player ∧ c.distance = a.distance ∧ c.speedMultiplier = a.speedMultiplier) :=
    fun a b c h g => ⟨g.1.trans h.1, g.2.1.trans h.2.1, g.2.2.trans h.2.2⟩
  constructor
  · unfold updateObstacles forEach
    refine forEachFrom_rel (fun s => s.obstacles) updateObstaclesCb
      (fun a b => b.player = a.player ∧ b.distance = a.distance ∧
        b.speedMultiplier = a.speedMultiplier) (fun _ => ⟨rfl, rfl, rfl⟩) htrans ?_ _ _ s
    intro o k a _
    unfold updateObstaclesCb
    simp only []
    split <;> exact ⟨rfl, rfl, rfl⟩
  · unfold updateCoins forEach
    refine forEachFrom_rel (fun s => s.coins) updateCoinsCb
      (fun a b => b.player = a.player ∧ b.distance = a.distance ∧
        b.speedMultiplier = a.speedMultiplier) (fun _ => ⟨rfl, rfl, rfl⟩) htrans ?_ _ _ s
    intro c k a _
    unfold updateCoinsCb
    simp only []
    split
    · exact ⟨rfl, rfl, rfl⟩
    · split
      · obtain ⟨burst, rnd, -, -, heq⟩ := createParticles_spec
          (c.x - gameSpeed * a.speedMultiplier + c.size / 2) (c.y + c.size / 2)
          (Color.hex "#ffff00") 8
          { a with
            coins := (a.coins.set k
              { c with x := c.x - gameSpeed * a.speedMultiplier,
                       rotation := c.rotation + 1 / 10 }).set k
              { c with x := c.x - gameSpeed * a.speedMultiplier,
                       rotation := c.rotation + 1 / 10, collected := true }
            score := a.score + 50 }
        rw [heq]
        exact ⟨rfl, rfl, rfl⟩
      · exact ⟨rfl, rfl, rfl⟩

/-- The spawning lines leave the player, the distance and the speed multiplier
alone. -/
theorem spawnStep_frame (W : ℚ) (s : GameState) :
    (spawnStep W s).player = s.player ∧ (spawnStep W s).distance = s.distance ∧
    (spawnStep W s).speedMultiplier = s.speedMultiplier ∧
    (spawnStep W s).gameRunning = s.gameRunning := by
  unfold spawnStep
  simp only [mathRandom]
  split_ifs <;> exact ⟨rfl, rfl, rfl, rfl⟩

/-- The player after `updatePlayer` depends on the player before only. -/
theorem updatePlayer_congr (s t : GameState) (h : s.player = t.player) :
    (updatePlayer s).player = (updatePlayer t).player := by
  simp only [updatePlayer, h]

/-- What a tick of a running game does to the player, the distance and the speed
multiplier: the player goes through `updatePlayer`, the multiplier is computed
from the distance at the start of the tick, and the distance then advances. -/
theorem gameLoop_physics (W : ℚ) (s : GameState) (h : s.gameRunning = true) :
    (gameLoop W s).player = (updatePlayer s).player ∧
    (gameLoop W s).speedMultiplier = 1 + s.distance / 1000 ∧
    (gameLoop W s).distance
      = s.distance + gameSpeed * (1 + s.distance / 1000) * (1 / 10) := by
  rw [gameLoop_running W s h]
  obtain ⟨-, -, -, p4, p5, -, -, -, -, p10, -⟩ := updateParticles_frame (updateBackground W
    (updateCoins (updateObstacles (updatePlayer (spawnStep W (advanceDistance s))))))
  obtain ⟨-, -, -, b4, b5, -, -, -, b9, -⟩ := updateBackground_frame W
    (updateCoins (updateObstacles (updatePlayer (spawnStep W (advanceDistance s)))))
  obtain ⟨c1, c2, c3⟩ := (scroll_frame
    (updateObstacles (updatePlayer (spawnStep W (advanceDistance s))))).2
  obtain ⟨o1, o2, o3⟩ := (scroll_frame (updatePlayer (spawnStep W (advanceDistance s)))).1
  obtain ⟨s1, s2, s3, -⟩ := spawnStep_frame W (advanceDistance s)
  have k1 : ∀ X : GameState, (checkCollisions X).player = X.player ∧
      (checkCollisions X).speedMultiplier = X.speedMultiplier ∧
      (checkCollisions X).distance = X.distance := by
    intro X
    obtain ⟨burst, rnd, -, -, heq⟩ := checkCollisions_spec X
    rw [heq]
    exact ⟨rfl, rfl, rfl⟩
  obtain ⟨k1, k2, k3⟩ := k1 (updateParticles (updateBackground W
    (updateCoins (updateObstacles (updatePlayer (spawnStep W (advanceDistance s)))))))
  have u2 : (updatePlayer (spawnStep W (advanceDistance s))).speedMultiplier
      = (spawnStep W (advanceDistance s)).speedMultiplier := rfl
  have u3 : (updatePlayer (spawnStep W (advanceDistance s))).distance
      = (spawnStep W (advanceDistance s)).distance := rfl
  refine ⟨?_, ?_, ?_⟩
  · rw [k1, p10, b9, c1, o1]
    exact updatePlayer_congr _ _ s1
  · rw [k2, p5, b5, c3, o3, u2, s3]
    rfl
  · rw [k3, p4, b4, c2, o2, u3, s2]
    rfl

/-! ## The collision predicate -/

/-- Claim C2. The box test of `checkCollisions` is symmetric in its two boxes, and
strict: an obstacle whose left edge is exactly at the player's right edge
fails the test, the callback leaves the state as it is, and a store holding
only that obstacle makes `checkCollisions` change nothing. -/
theorem overlap_symmetric_strict (a b : Box) (s : GameState) (o : Obstacle) (k : Nat)
    (h : s.player.x + s.player.width = o.x) :
    overlap a b = overlap b a ∧
    overlap s.player.box o.box = false ∧
    checkCollisionsCb o k s = s ∧
    (s.obstacles = [o] → checkCollisions s = s) := by
  have hsymm : overlap a b = overlap b a := by
    rw [Bool.eq_iff_iff]
    simp only [overlap, Bool.and_eq_true, decide_eq_true_eq, gt_iff_lt]
    tauto
  have hno : overlap s.player.box o.box = false := by
    simp only [overlap, Player.box, Obstacle.box, h, gt_iff_lt, lt_self_iff_false, decide_False,
      Bool.and_false, Bool.false_and]
  refine ⟨hsymm, hno, by simp [checkCollisionsCb, hno], fun hs => ?_⟩
  apply checkCollisions_none
  intro q hq
  rw [hs] at hq
  rw [List.mem_singleton.1 hq]
  exact hno

/-- Witness for C2: the player of the script (right edge at 130) and a wall
standing at `x = 130`. -/
theorem overlap_symmetric_strict_witness :
    touchingState.player.x + touchingState.player.width = (wallAt 130).x ∧
    overlap touchingState.player.box (wallAt 130).box
      = overlap (wallAt 130).box touchingState.player.box ∧
    overlap touchingState.player.box (wallAt 130).box = false ∧
    checkCollisions touchingState = touchingState :=
  have h : touchingState.player.x + touchingState.player.width = (wallAt 130).x := by
    norm_num [touchingState, runningState, initialState, initialPlayer, wallAt, newObstacle]
  ⟨h, (overlap_symmetric_strict _ _ touchingState (wallAt 130) 0 h).1,
    (overlap_symmetric_strict touchingState.player.box (wallAt 130).box touchingState
      (wallAt 130) 0 h).2.1,
    (overlap_symmetric_strict touchingState.player.box (wallAt 130).box touchingState
      (wallAt 130) 0 h).2.2.2 rfl⟩

/-! ## Collisions and collection -/

/-- Claim C3. When an obstacle of the store overlaps the player, `checkCollisions`
clears `gameRunning` and appends particles to the store, one burst of 15 per
overlapping obstacle (so at least 15, and exactly 15 when one obstacle
overlaps), every one of them at the player's centre with life 60; the score,
the distance, the obstacle store and the player are unchanged. -/
theorem collision_ends_run (s : GameState)
    (h : ∃ o ∈ s.obstacles, overlap s.player.box o.box = true) :
    ∃ burst : List Particle,
      (checkCollisions s).gameRunning = false ∧
      (checkCollisions s).particles = s.particles ++ burst ∧
      burst.length = 15 * s.obstacles.countP (fun o => overlap s.player.box o.box) ∧
      15 ≤ burst.length ∧
      (∀ q ∈ burst, q.x = s.player.x + s.player.width / 2 ∧
        q.y = s.player.y + s.player.height / 2 ∧ q.life = 60) ∧
      (checkCollisions s).score = s.score ∧
      (checkCollisions s).distance = s.distance ∧
      (checkCollisions s).obstacles = s.obstacles ∧
      (checkCollisions s).player = s.player := by
  obtain ⟨burst, rnd, hlen, hall, heq⟩ := checkCollisions_spec s
  have hany : (s.obstacles.any fun o => overlap s.player.box o.box) = true := by
    obtain ⟨o, ho, hov⟩ := h
    exact List.any_eq_true.2 ⟨o, ho, hov⟩
  have hpos : 0 < s.obstacles.countP (fun o => overlap s.player.box o.box) := by
    obtain ⟨o, ho, hov⟩ := h
    exact List.countP_pos_iff.2 ⟨o, ho, hov⟩
  refine ⟨burst, ?_, ?_, hlen, by omega, hall, ?_, ?_, ?_, ?_⟩
  all_goals simp [heq, hany]

/-- Witness for C3: a wall standing at `x = 110`, inside the player's box. -/
theorem collision_ends_run_witness :
    (∃ o ∈ hitState.obstacles, overlap hitState.player.box o.box = true) ∧
    ∃ burst : List Particle,
      (checkCollisions hitState).gameRunning = false ∧
      (checkCollisions hitState).particles = hitState.particles ++ burst ∧
      burst.length = 15 * hitState.obstacles.countP (fun o => overlap hitState.player.box o.box) ∧
      15 ≤ burst.length ∧
      (∀ q ∈ burst, q.x = hitState.player.x + hitState.player.width / 2 ∧
        q.y = hitState.player.y + hitState.player.height / 2 ∧ q.life = 60) ∧
      (checkCollisions hitState).score = hitState.score ∧
      (checkCollisions hitState).distance = hitState.distance ∧
      (checkCollisions hitState).obstacles = hitState.obstacles ∧
      (checkCollisions hitState).player = hitState.player :=
  have h : ∃ o ∈ hitState.obstacles, overlap hitState.player.box o.box = true :=
    ⟨wallAt 110, by simp [hitState], by
      norm_num [hitState, runningState, initialState, initialPlayer, overlap, Player.box,
        Obstacle.box]⟩
  ⟨h, collision_ends_run hitState h⟩

/-- Claim C4. When the coin store holds one uncollected coin that, after this
tick's move to the left, is not fully off-screen and passes the strict box test
against the player, `updateCoins` adds exactly 50 to the score, empties the
store, and appends exactly 8 particles, each at the centre of the (moved) coin
with life 60. -/
theorem coin_collected (s : GameState) (c : Coin) (hstore : s.coins = [c])
    (hc : c.collected = false)
    (hon : ¬ (c.x - gameSpeed * s.speedMultiplier + c.size < 0))
    (hov : coinHitsPlayer { c with x := c.x - gameSpeed * s.speedMultiplier } s.player = true) :
    ∃ burst : List Particle,
      (updateCoins s).score = s.score + 50 ∧
      (updateCoins s).coins = [] ∧
      (updateCoins s).particles = s.particles ++ burst ∧
      burst.length = 8 ∧
      ∀ q ∈ burst, q.x = c.x - gameSpeed * s.speedMultiplier + c.size / 2 ∧
        q.y = c.y + c.size / 2 ∧ q.life = 60 := by
  obtain ⟨burst, rnd, hlen, hall, heq⟩ := createParticles_spec
    (c.x - gameSpeed * s.speedMultiplier + c.size / 2) (c.y + c.size / 2)
    (Color.hex "#ffff00") 8
    { s with
      coins := [{ c with
        x := c.x - gameSpeed * s.speedMultiplier
        rotation := c.rotation + 1 / 10
        collected := true }]
      score := s.score + 50 }
  have hov2 : coinHitsPlayer
      { x := c.x - gameSpeed * s.speedMultiplier, y := c.y, size := c.size,
        rotation := c.rotation + 1 / 10, collected := false }
      s.player = true := hov
  have hrun : updateCoins s = { s with
      coins := []
      score := s.score + 50
      particles := s.particles ++ burst
      random := rnd } := by
    simp only [updateCoins, forEach, forEachFrom, hstore, List.length_singleton,
      List.getElem?_cons_zero, updateCoinsCb, hon, if_false, hc, hov2, Bool.not_false,
      Bool.true_and, if_true, List.set_cons_zero, heq, List.eraseIdx_cons_zero]
  refine ⟨burst, by rw [hrun], by rw [hrun], by rw [hrun], hlen, fun q hq => ?_⟩
  exact ⟨(hall q hq).1, (hall q hq).2.1, (hall q hq).2.2.1⟩

/-- Witness for C4: a coin at `(112, 310)`, which one move to the left brings to
`x = 110`, inside the box of the player standing on the ground. -/
theorem coin_collected_witness :
    (coinState.coins = [coinAt 112 310] ∧ (coinAt 112 310).collected = false ∧
      ¬ ((coinAt 112 310).x - gameSpeed * coinState.speedMultiplier + (coinAt 112 310).size < 0) ∧
      coinHitsPlayer
        { coinAt 112 310 with x := (coinAt 112 310).x - gameSpeed * coinState.speedMultiplier }
        coinState.player = true) ∧
    ∃ burst : List Particle,
      (updateCoins coinState).score = coinState.score + 50 ∧
      (updateCoins coinState).coins = [] ∧
      (updateCoins coinState).particles = coinState.particles ++ burst ∧
      burst.length = 8 ∧
      ∀ q ∈ burst,
        q.x = (coinAt 112 310).x - gameSpeed * coinState.speedMultiplier
            + (coinAt 112 310).size / 2 ∧
        q.y = (coinAt 112 310).y + (coinAt 112 310).size / 2 ∧ q.life = 60 :=
  have h3 : ¬ ((coinAt 112 310).x - gameSpeed * coinState.speedMultiplier
      + (coinAt 112 310).size < 0) := by
    norm_num [coinState, runningState, initialState, coinAt, gameSpeed]
  have h4 : coinHitsPlayer
      { coinAt 112 310 with x := (coinAt 112 310).x - gameSpeed * coinState.speedMultiplier }
      coinState.player = true := by
    norm_num [coinState, runningState, initialState, initialPlayer, coinAt, gameSpeed,
      coinHitsPlayer]
  ⟨⟨rfl, rfl, h3, h4⟩, coin_collected coinState (coinAt 112 310) rfl rfl h3 h4⟩

/-! ## Player physics and jumping -/

/-- The physics of `updatePlayer`, field by field: the velocity gains gravity
when airborne, `y` gains the velocity, and the result is clamped to the ground
line; `x` and the size are untouched. -/
theorem updatePlayer_physics (s : GameState) :
    (updatePlayer s).player.y
      = (if groundY - s.player.height ≤ s.player.y +
            (if s.player.onGround then s.player.velocityY else s.player.velocityY + gravity)
         then groundY - s.player.height
         else s.player.y +
            (if s.player.onGround then s.player.velocityY else s.player.velocityY + gravity)) ∧
    (updatePlayer s).player.velocityY
      = (if groundY - s.player.height ≤ s.player.y +
            (if s.player.onGround then s.player.velocityY else s.player.velocityY + gravity)
         then 0
         else (if s.player.onGround then s.player.velocityY
               else s.player.velocityY + gravity)) ∧
    (updatePlayer s).player.onGround
      = decide (groundY - s.player.height ≤ s.player.y +
            (if s.player.onGround then s.player.velocityY else s.player.velocityY + gravity)) ∧
    (updatePlayer s).player.x = s.player.x ∧
    (updatePlayer s).player.width = s.player.width ∧
    (updatePlayer s).player.height = s.player.height := by
  unfold updatePlayer
  cases hg : s.player.onGround
  · by_cases hp : groundY - s.player.height ≤ s.player.y + (s.player.velocityY + gravity)
    · simp [hg, hp]
    · simp [hg, hp]
  · by_cases hp : groundY - s.player.height ≤ s.player.y + s.player.velocityY
    · simp [hg, hp]
    · simp [hg, hp]

/-- Claim C5. After `updatePlayer` the player's `y` is at most
`groundY - player.height` (300 for the script's height of 40), whatever the
state before; and when the position before the clamp (the old `y` plus the
velocity, gravity included when airborne) reaches or passes that line, `y` is
exactly on the line, `velocityY` is 0 and `onGround` is true. -/
theorem updatePlayer_clamps (s : GameState) :
    (updatePlayer s).player.y ≤ groundY - s.player.height ∧
    (updatePlayer s).player.height = s.player.height ∧
    (s.player.height = 40 → groundY - s.player.height = 300) ∧
    (groundY - s.player.height ≤
        s.player.y + (if s.player.onGround then s.player.velocityY
                      else s.player.velocityY + gravity) →
      (updatePlayer s).player.y = groundY - s.player.height ∧
      (updatePlayer s).player.velocityY = 0 ∧
      (updatePlayer s).player.onGround = true) := by
  obtain ⟨hy, hv, hg, -, -, hh⟩ := updatePlayer_physics s
  refine ⟨?_, hh, ?_, ?_⟩
  · by_cases hp : groundY - s.player.height ≤ s.player.y +
        (if s.player.onGround then s.player.velocityY else s.player.velocityY + gravity)
    · rw [hy, if_pos hp]
    · rw [hy, if_neg hp]
      exact le_of_lt (not_le.1 hp)
  · intro h40
    rw [h40]
    norm_num [groundY]
  · intro hpre
    rw [hy, hv, hg]
    simp [hpre]

/-- Witness for C5: a player falling at speed 7 from `y = 298` passes the ground
line and is put back on it. -/
theorem updatePlayer_clamps_witness :
    (fallingState.player.height = 40 ∧
      groundY - fallingState.player.height ≤
        fallingState.player.y + (if fallingState.player.onGround
          then fallingState.player.velocityY
          else fallingState.player.velocityY + gravity)) ∧
    groundY - fallingState.player.height = 300 ∧
    (updatePlayer fallingState).player.y = groundY - fallingState.player.height ∧
    (updatePlayer fallingState).player.velocityY = 0 ∧
    (updatePlayer fallingState).player.onGround = true :=
  have h1 : fallingState.player.height = 40 := rfl
  have h2 : groundY - fallingState.player.height ≤
      fallingState.player.y + (if fallingState.player.onGround
        then fallingState.player.velocityY
        else fallingState.player.velocityY + gravity) := by
    norm_num [fallingState, runningState, initialState, initialPlayer, groundY, gravity]
  ⟨⟨h1, h2⟩, (updatePlayer_clamps fallingState).2.2.1 h1,
    (updatePlayer_clamps fallingState).2.2.2 h2⟩

/-- Claim C7. The function `jump` acts only when the player is on the ground
and the run is active: then `velocityY` becomes `jumpPower` (-15), `onGround`
becomes false, `jumping` becomes true, and nothing else changes (position,
score, distance, all stores); otherwise the state is returned as it is. -/
theorem jump_effect (s : GameState) :
    jumpPower = -15 ∧
    (s.player.onGround = true ∧ s.gameRunning = true →
      (jump s).player.velocityY = jumpPower ∧
      (jump s).player.onGround = false ∧
      jump s = { s with player :=
        { s.player with velocityY := jumpPower, jumping := true, onGround := false } }) ∧
    (¬ (s.player.onGround = true ∧ s.gameRunning = true) → jump s = s) := by
  refine ⟨rfl, ?_, ?_⟩
  · rintro ⟨h1, h2⟩
    simp [jump, h1, h2]
  · intro h
    unfold jump
    rw [if_neg]
    simpa using h

/-- Witness for C7: a jump from the ground in a running state, and a second
jump attempted in the air. -/
theorem jump_effect_witness :
    (runningState.player.onGround = true ∧ runningState.gameRunning = true) ∧
    ¬ ((jump runningState).player.onGround = true ∧ (jump runningState).gameRunning = true) ∧
    (jump runningState).player.velocityY = -15 ∧
    (jump runningState).player.onGround = false ∧
    (jump runningState).player.y = runningState.player.y ∧
    jump (jump runningState) = jump runningState :=
  have h1 : runningState.player.onGround = true ∧ runningState.gameRunning = true := ⟨rfl, rfl⟩
  have h2 : ¬ ((jump runningState).player.onGround = true ∧
      (jump runningState).gameRunning = true) := by
    rw [((jump_effect runningState).2.1 h1).2.1]
    simp
  ⟨h1, h2, ((jump_effect runningState).2.1 h1).1.trans (jump_effect runningState).1,
    ((jump_effect runningState).2.1 h1).2.1,
    by rw [((jump_effect runningState).2.1 h1).2.2],
    (jump_effect (jump runningState)).2.2 h2⟩

/-! ## Velocity and the ground flag during a run -/

/-- The player's shape is kept by `updatePlayer`. -/
theorem PlayerInv_updatePlayer (s : GameState) (h : PlayerInv s.player) :
    PlayerInv (updatePlayer s).player := by
  obtain ⟨hy, hv, hg, -, -, hh⟩ := updatePlayer_physics s
  obtain ⟨h40, hcase⟩ := h
  refine ⟨hh.trans h40, ?_⟩
  rcases hcase with ⟨g1, g2, g3⟩ | ⟨g1, n, g2⟩
  · left
    have hp : groundY - s.player.height ≤ s.player.y +
        (if s.player.onGround then s.player.velocityY else s.player.velocityY + gravity) := by
      rw [g1, g2, g3, h40]
      norm_num [groundY]
    refine ⟨?_, ?_, ?_⟩
    · rw [hg]; exact decide_eq_true hp
    · rw [hv, if_pos hp]
    · rw [hy, if_pos hp, h40]; norm_num [groundY]
  · by_cases hp : groundY - s.player.height ≤ s.player.y +
        (if s.player.onGround then s.player.velocityY else s.player.velocityY + gravity)
    · left
      refine ⟨?_, ?_, ?_⟩
      · rw [hg]; exact decide_eq_true hp
      · rw [hv, if_pos hp]
      · rw [hy, if_pos hp, h40]; norm_num [groundY]
    · right
      refine ⟨?_, n + 1, ?_⟩
      · rw [hg]; exact decide_eq_false hp
      · rw [hv, if_neg hp, g1, g2]
        push_cast
        ring

/-- The player's shape is kept by `jump`. -/
theorem PlayerInv_jump (s : GameState) (h : PlayerInv s.player) : PlayerInv (jump s).player := by
  unfold jump
  split
  · exact ⟨h.1, Or.inr ⟨rfl, 0, by simp⟩⟩
  · exact h

/-- The player's shape is kept by a tick. -/
theorem PlayerInv_gameLoop (W : ℚ) (s : GameState) (h : PlayerInv s.player) :
    PlayerInv (gameLoop W s).player := by
  cases hr : s.gameRunning
  · rw [gameLoop_stopped W s hr]
    exact h
  · rw [(gameLoop_physics W s hr).1]
    exact PlayerInv_updatePlayer s h

/-- Every state of a run has a player of that shape. -/
theorem PlayerInv_of_reachable (W : ℚ) (s : GameState) (h : Reachable W s) :
    PlayerInv s.player := by
  induction h with
  | restart s hw hh => exact ⟨hh, Or.inl ⟨rfl, rfl, rfl⟩⟩
  | jump s _ ih => exact PlayerInv_jump s ih
  | tick s _ ih => exact PlayerInv_gameLoop W s ih

/-- A player of that shape has zero velocity exactly when on the ground: in the
air the velocity is `-15 + 0.8 n`, which is zero for no whole `n`. -/
theorem PlayerInv_velocity (p : Player) (h : PlayerInv p) :
    p.velocityY = 0 ↔ p.onGround = true := by
  rcases h.2 with ⟨g1, g2, -⟩ | ⟨g1, n, g2⟩
  · simp [g1, g2]
  · rw [g1, g2]
    simp only [Bool.false_eq_true, iff_false]
    intro h0
    have h1 : (4 : ℚ) * n = 75 := by
      simp only [jumpPower, gravity] at h0
      linarith
    have h2 : 4 * n = 75 := by exact_mod_cast h1
    omega

/-- Claim C6. In every state of a run (reached from the restart state by calls
of `jump` and ticks in any order), and again right after a further
`updatePlayer`, the player's `velocityY` is 0 if and only if `onGround` is
true. -/
theorem velocity_zero_iff_grounded (W : ℚ) (s : GameState) (h : Reachable W s) :
    (s.player.velocityY = 0 ↔ s.player.onGround = true) ∧
    ((updatePlayer s).player.velocityY = 0 ↔ (updatePlayer s).player.onGround = true) :=
  ⟨PlayerInv_velocity _ (PlayerInv_of_reachable W s h),
   PlayerInv_velocity _ (PlayerInv_updatePlayer s (PlayerInv_of_reachable W s h))⟩

/-- Witness for C6: the state one tick after a jump from the restart state. -/
theorem velocity_zero_iff_grounded_witness :
    Reachable 800 (gameLoop 800 (jump (restartReset runningState))) ∧
    (((gameLoop 800 (jump (restartReset runningState))).player.velocityY = 0 ↔
      (gameLoop 800 (jump (restartReset runningState))).player.onGround = true) ∧
    ((updatePlayer (gameLoop 800 (jump (restartReset runningState)))).player.velocityY = 0 ↔
      (updatePlayer (gameLoop 800 (jump (restartReset runningState)))).player.onGround
        = true)) :=
  have h : Reachable 800 (gameLoop 800 (jump (restartReset runningState))) :=
    Reachable.tick _ (Reachable.jump _ (Reachable.restart runningState rfl rfl))
  ⟨h, velocity_zero_iff_grounded 800 _ h⟩

/-! ## Restart, distance and speed -/

/-- The background after a restart from `endedState`: the building has scrolled
by one tick. -/
theorem restartGame_endedState_buildings : (restartGame 800 endedState).buildings
    = [{ x := -3 / 5, y := 100, width := 100, height := 150, color := Color.hsl 0 }] := by
  rw [restartGame, gameLoop_running _ _ rfl]
  have h0 : spawnStep 800 (advanceDistance (restartReset endedState))
      = { restartReset endedState with distance := 1 / 5, random := fun _ => 1 / 2 } := by
    simp [spawnStep, advanceDistance, restartReset, endedState, runningState, initialState,
      mathRandom, gameSpeed]
    norm_num
  rw [h0]
  rw [updateObstacles, forEach_nil _ _ _ rfl, updateCoins, forEach_nil _ _ _ rfl]
  obtain ⟨burst, rnd, -, -, heq⟩ := checkCollisions_spec (updateParticles (updateBackground 800
    (updatePlayer { restartReset endedState with distance := 1 / 5, random := fun _ => 1 / 2 })))
  rw [heq]
  show (updateParticles _).buildings = _
  rw [(updateParticles_frame _).2.2.2.2.2.2.2.1]
  rw [updateBackground]
  simp only []
  rw [forEach_singleton (fun s => s.buildings) (updateBuildingsCb 800) _ _ rfl]
  rw [forEach_singleton (fun s => s.clouds) (updateCloudsCb 800) _
    { x := 50, y := 40, size := 30, speed := 1 / 2 } (by
      simp [updateBuildingsCb, updatePlayer, restartReset, endedState, runningState, initialState,
        gameSpeed]
      split <;> rfl)]
  simp [updateBuildingsCb, updateCloudsCb, updatePlayer, restartReset, endedState, runningState,
    initialState, gameSpeed]
  norm_num

/-- Counterexample for C8: after `restartGame` returns from the ended game
`endedState`, the distance is not 0 (it is 0.2) and the buildings are not as
they were before the restart (the building has moved from 0 to -0.6). -/
theorem restartGame_not_pristine :
    ¬ ((restartGame 800 endedState).score = 0 ∧
       (restartGame 800 endedState).distance = 0 ∧
       (restartGame 800 endedState).speedMultiplier = 1 ∧
       (restartGame 800 endedState).obstacles = [] ∧
       (restartGame 800 endedState).coins = [] ∧
       (restartGame 800 endedState).particles = [] ∧
       (restartGame 800 endedState).gameRunning = true ∧
       (restartGame 800 endedState).buildings = endedState.buildings ∧
       (restartGame 800 endedState).clouds = endedState.clouds) ∧
    (restartGame 800 endedState).distance = 1 / 5 ∧
    (restartGame 800 endedState).buildings ≠ endedState.buildings := by
  have hd : (restartGame 800 endedState).distance = 1 / 5 := by
    rw [restartGame, (gameLoop_physics 800 (restartReset endedState) rfl).2.2]
    norm_num [restartReset, gameSpeed]
  have hb : (restartGame 800 endedState).buildings ≠ endedState.buildings := by
    rw [restartGame_endedState_buildings]
    simp [endedState]
  refine ⟨fun h => ?_, hd, hb⟩
  exact hb h.2.2.2.2.2.2.2.1

/-- Claim C8 (amended). The resets of `restartGame` give score 0, distance 0,
speed multiplier 1, empty obstacle, coin and particle stores and a running
game, and leave the buildings and clouds as they were; `restartGame` then
makes one call of `gameLoop` before it returns, so that on return the speed
multiplier is 1 and the distance is 0.2, one tick's advance. -/
theorem restartGame_resets_then_ticks (W : ℚ) (s : GameState) :
    (restartReset s).score = 0 ∧
    (restartReset s).distance = 0 ∧
    (restartReset s).speedMultiplier = 1 ∧
    (restartReset s).obstacles = [] ∧
    (restartReset s).coins = [] ∧
    (restartReset s).particles = [] ∧
    (restartReset s).gameRunning = true ∧
    (restartReset s).buildings = s.buildings ∧
    (restartReset s).clouds = s.clouds ∧
    restartGame W s = gameLoop W (restartReset s) ∧
    (restartGame W s).speedMultiplier = 1 ∧
    (restartGame W s).distance = 1 / 5 := by
  refine ⟨rfl, rfl, rfl, rfl, rfl, rfl, rfl, rfl, rfl, rfl, ?_, ?_⟩
  · rw [restartGame, (gameLoop_physics W (restartReset s) rfl).2.1]
    norm_num [restartReset]
  · rw [restartGame, (gameLoop_physics W (restartReset s) rfl).2.2]
    norm_num [restartReset, gameSpeed]

/-- Counterexample for C10: one tick after the restart the stored speed
multiplier is 1 while the stored distance is 0.2, and `1 + 0.2 / 1000` is not
1. -/
theorem speedMultiplier_not_of_stored_distance :
    (gameLoop 800 (restartReset runningState)).speedMultiplier = 1 ∧
    (gameLoop 800 (restartReset runningState)).distance = 1 / 5 ∧
    ¬ ((gameLoop 800 (restartReset runningState)).speedMultiplier
        = 1 + (gameLoop 800 (restartReset runningState)).distance / 1000) := by
  have hs : (gameLoop 800 (restartReset runningState)).speedMultiplier = 1 := by
    rw [(gameLoop_physics 800 (restartReset runningState) rfl).2.1]
    norm_num [restartReset]
  have hd : (gameLoop 800 (restartReset runningState)).distance = 1 / 5 := by
    rw [(gameLoop_physics 800 (restartReset runningState) rfl).2.2]
    norm_num [restartReset, gameSpeed]
  refine ⟨hs, hd, ?_⟩
  rw [hs, hd]
  norm_num

/-- After at least one tick of a run the distance is not negative and the stored
multiplier is strictly behind it: the multiplier was computed from the distance
before the latest advance. -/
theorem speedMultiplier_behind_distance (W : ℚ) (s : GameState) (n : Nat) :
    0 ≤ ((gameLoop W)^[n + 1] (restartReset s)).distance ∧
    ((gameLoop W)^[n + 1] (restartReset s)).speedMultiplier
      < 1 + ((gameLoop W)^[n + 1] (restartReset s)).distance / 1000 := by
  have hstep : ∀ t : GameState, t.gameRunning = true → 0 ≤ t.distance →
      0 ≤ (gameLoop W t).distance ∧
      (gameLoop W t).speedMultiplier < 1 + (gameLoop W t).distance / 1000 := by
    intro t ht hd
    obtain ⟨-, h2, h3⟩ := gameLoop_physics W t ht
    rw [h2, h3]
    simp only [gameSpeed]
    constructor <;> linarith
  induction n with
  | zero =>
    rw [Function.iterate_succ_apply', Function.iterate_zero_apply]
    exact hstep (restartReset s) rfl (le_refl _)
  | succ n ih =>
    rw [Function.iterate_succ_apply']
    cases hr : ((gameLoop W)^[n + 1] (restartReset s)).gameRunning
    · rw [gameLoop_stopped W _ hr]
      exact ih
    · exact hstep _ hr ih.1

/-- Claim C10 (amended). The stored speed multiplier is `1 + d / 1000` for the
distance `d` stored at the start of the latest tick, not for the distance
stored now: a tick of a running game first sets the multiplier from the
current distance and then advances the distance by
`gameSpeed * speedMultiplier * 0.1`. Hence in every state reached from the
restart state by at least one tick, the stored multiplier is strictly less
than `1 + distance / 1000` for the stored distance: it lags by one tick. -/
theorem speedMultiplier_of_previous_distance (W : ℚ) (s : GameState) (n : Nat) :
    (((gameLoop W)^[n] (restartReset s)).gameRunning = true →
      ((gameLoop W)^[n + 1] (restartReset s)).speedMultiplier
        = 1 + ((gameLoop W)^[n] (restartReset s)).distance / 1000 ∧
      ((gameLoop W)^[n + 1] (restartReset s)).distance
        = ((gameLoop W)^[n] (restartReset s)).distance
          + gameSpeed * ((gameLoop W)^[n + 1] (restartReset s)).speedMultiplier * (1 / 10)) ∧
    ((gameLoop W)^[n + 1] (restartReset s)).speedMultiplier
      < 1 + ((gameLoop W)^[n + 1] (restartReset s)).distance / 1000 := by
  refine ⟨fun hr => ?_, (speedMultiplier_behind_distance W s n).2⟩
  rw [Function.iterate_succ_apply']
  obtain ⟨-, h2, h3⟩ := gameLoop_physics W _ hr
  exact ⟨h2, by rw [h3, h2]⟩

/-- Witness for C10: the first tick after a restart. -/
theorem speedMultiplier_of_previous_distance_witness :
    ((gameLoop 800)^[0] (restartReset runningState)).gameRunning = true ∧
    ((gameLoop 800)^[0 + 1] (restartReset runningState)).speedMultiplier
      = 1 + ((gameLoop 800)^[0] (restartReset runningState)).distance / 1000 ∧
    ((gameLoop 800)^[0 + 1] (restartReset runningState)).speedMultiplier
      < 1 + ((gameLoop 800)^[0 + 1] (restartReset runningState)).distance / 1000 :=
  ⟨rfl, ((speedMultiplier_of_previous_distance 800 runningState 0).1 rfl).1,
    (speedMultiplier_of_previous_distance 800 runningState 0).2⟩

/-! ## A wall met without jumping -/

/-- When the next two random numbers are above the thresholds, nothing is
spawned. -/
theorem spawnStep_none (W : ℚ) (s : GameState) (h0 : ¬ s.random 0 < 8 / 1000)
    (h1 : ¬ s.random 1 < 15 / 1000) :
    spawnStep W s = { s with random := fun n => s.random (n + 1 + 1) } := by
  simp [spawnStep, mathRandom, h0, h1]

/-- The player standing on the ground stays so through `updatePlayer`. -/
theorem PlayerGrounded_updatePlayer (s : GameState) (h : PlayerGrounded s.player) :
    PlayerGrounded (updatePlayer s).player := by
  obtain ⟨hy, hv, hg, hx, hw, hh⟩ := updatePlayer_physics s
  obtain ⟨g1, g2, g3, g4, g5, g6⟩ := h
  have hp : groundY - s.player.height ≤ s.player.y +
      (if s.player.onGround then s.player.velocityY else s.player.velocityY + gravity) := by
    rw [g2, g4, g5, g6]
    norm_num [groundY]
  refine ⟨hx.trans g1, ?_, hw.trans g3, hh.trans g4, ?_, ?_⟩
  · rw [hy, if_pos hp, g4]; norm_num [groundY]
  · rw [hv, if_pos hp]
  · rw [hg]; exact decide_eq_true hp

/-- One tick of a run with a wall ahead, up to the end of the scrolling stages:
the wall has moved left by `gameSpeed * speedMultiplier` and is still in the
store. -/
theorem wall_scroll (W : ℚ) (s : GameState) (o : Obstacle) (hobs : s.obstacles = [o])
    (hcoins : s.coins = []) (hrnd : ∀ i, (15 : ℚ) / 1000 ≤ s.random i)
    (hon : ¬ (o.x - gameSpeed * (1 + s.distance / 1000) + o.width < 0)) :
    updateCoins (updateObstacles (updatePlayer (spawnStep W (advanceDistance s))))
      = { s with
          speedMultiplier := 1 + s.distance / 1000
          distance := s.distance + gameSpeed * (1 + s.distance / 1000) * (1 / 10)
          random := fun n => s.random (n + 1 + 1)
          player := (updatePlayer s).player
          obstacles := [{ o with x := o.x - gameSpeed * (1 + s.distance / 1000) }] } := by
  have h0 : ¬ (advanceDistance s).random 0 < 8 / 1000 := by
    have := hrnd 0
    show ¬ s.random 0 < 8 / 1000
    intro h
    linarith
  have h1 : ¬ (advanceDistance s).random 1 < 15 / 1000 := by
    have := hrnd 1
    show ¬ s.random 1 < 15 / 1000
    intro h
    linarith
  rw [spawnStep_none W _ h0 h1]
  rw [updateObstacles, forEach_singleton (fun s => s.obstacles) updateObstaclesCb
    (updatePlayer
      { advanceDistance s with random := fun n => (advanceDistance s).random (n + 1 + 1) })
    o hobs]
  have hcb : updateObstaclesCb o 0 (updatePlayer
      { advanceDistance s with random := fun n => (advanceDistance s).random (n + 1 + 1) })
      = { s with
          speedMultiplier := 1 + s.distance / 1000
          distance := s.distance + gameSpeed * (1 + s.distance / 1000) * (1 / 10)
          random := fun n => s.random (n + 1 + 1)
          player := (updatePlayer s).player
          obstacles := [{ o with x := o.x - gameSpeed * (1 + s.distance / 1000) }] } := by
    simp only [updateObstaclesCb, updatePlayer, advanceDistance, hobs, List.set_cons_zero, hon,
      if_false]
  rw [hcb, updateCoins]
  exact forEach_nil _ _ _ hcoins
/-- One tick of a run with a wall ahead, for a canvas at most 240000 wide: either
the wall is still ahead (and the distance has grown by at least 0.2), or the
wall has reached the player and the run has ended, with nothing scored and the
wall still in the store. -/
theorem wall_tick (W : ℚ) (s : GameState) (hW : W ≤ 240000) (h : WallAhead W s) :
    (WallAhead W (gameLoop W s) ∧ s.distance + 1 / 5 ≤ (gameLoop W s).distance) ∨
    Crashed (gameLoop W s) := by
  obtain ⟨hrun, hscore, ⟨o, hobs, how, hoy, hoh, hox, hfar⟩, hcoins, hparts, hpl, hd, hrnd⟩ := h
  have hsm : 50 > gameSpeed * (1 + s.distance / 1000) := by
    simp only [gameSpeed]
    linarith
  have hsm2 : 2 ≤ gameSpeed * (1 + s.distance / 1000) := by
    simp only [gameSpeed]
    linarith
  have hon : ¬ (o.x - gameSpeed * (1 + s.distance / 1000) + o.width < 0) := by
    rw [how]
    intro hc
    linarith
  rw [gameLoop_running W s hrun, wall_scroll W s o hobs hcoins hrnd hon]
  generalize hT : ({ s with
      speedMultiplier := 1 + s.distance / 1000
      distance := s.distance + gameSpeed * (1 + s.distance / 1000) * (1 / 10)
      random := fun n => s.random (n + 1 + 1)
      player := (updatePlayer s).player
      obstacles := [{ o with x := o.x - gameSpeed * (1 + s.distance / 1000) }] } : GameState) = T
  have hTrun : T.gameRunning = true := by rw [← hT]; exact hrun
  have hTscore : T.score = 0 := by rw [← hT]; exact hscore
  have hTdist : T.distance = s.distance + gameSpeed * (1 + s.distance / 1000) * (1 / 10) := by
    rw [← hT]
  have hTobs : T.obstacles = [{ o with x := o.x - gameSpeed * (1 + s.distance / 1000) }] := by
    rw [← hT]
  have hTcoins : T.coins = [] := by rw [← hT]; exact hcoins
  have hTparts : T.particles = [] := by rw [← hT]; exact hparts
  have hTpl : PlayerGrounded T.player := by
    rw [← hT]; exact PlayerGrounded_updatePlayer s hpl
  have hTrnd : ∀ i, (15 : ℚ) / 1000 ≤ T.random i := by
    rw [← hT]; exact fun i => hrnd (i + 1 + 1)
  obtain ⟨b1, -, b3, b4, -, b6, b7, b8, b9, b10⟩ := updateBackground_frame W T
  have hP : updateParticles (updateBackground W T) = updateBackground W T :=
    forEach_nil _ _ _ (b8.trans hTparts)
  rw [hP]
  generalize updateBackground W T = B at b1 b3 b4 b6 b7 b8 b9 b10
  obtain ⟨p1, p2, p3, p4, p5, p6⟩ := hTpl
  by_cases hhit : o.x - gameSpeed * (1 + s.distance / 1000) < 130
  · right
    obtain ⟨burst, rnd, -, -, heq⟩ := checkCollisions_spec B
    have hany : (B.obstacles.any fun q => overlap B.player.box q.box) = true := by
      rw [b6, hTobs, b9]
      simp only [List.any_cons, List.any_nil, Bool.or_false, overlap, Player.box, Obstacle.box,
        p1, p2, p3, p4, how, hoy, hoh, Bool.and_eq_true, decide_eq_true_eq]
      refine ⟨⟨⟨?_, ?_⟩, ?_⟩, ?_⟩ <;> linarith
    rw [heq]
    refine ⟨by simp [hany], b3.trans hTscore, _, b6.trans hTobs, ?_⟩
    show 0 ≤ o.x - gameSpeed * (1 + s.distance / 1000) + o.width
    linarith
  · left
    have hnone : ∀ q ∈ B.obstacles, overlap B.player.box q.box = false := by
      intro q hq
      rw [b6, hTobs] at hq
      rw [List.mem_singleton.1 hq, b9]
      simp only [overlap, Player.box, Obstacle.box, p1, p2, p3, p4, how, hoy, hoh,
        Bool.and_eq_false_imp, Bool.and_eq_true, decide_eq_true_eq, decide_eq_false_iff_not]
      intro _ _
      exact absurd (by assumption) (by linarith)
    rw [checkCollisions_none B hnone]
    refine ⟨⟨b1.trans hTrun, b3.trans hTscore, ⟨_, b6.trans hTobs, how, hoy, hoh, ?_, ?_⟩,
      b7.trans hTcoins, b8.trans hTparts, ?_, ?_, ?_⟩, ?_⟩
    · show o.x - gameSpeed * (1 + s.distance / 1000) = W - 10 * B.distance
      rw [b4, hTdist, hox]
      ring
    · show 130 ≤ o.x - gameSpeed * (1 + s.distance / 1000)
      linarith
    · rw [b9]; exact ⟨p1, p2, p3, p4, p5, p6⟩
    · rw [b4, hTdist]
      linarith
    · intro i
      obtain ⟨j, hj⟩ := b10 i
      rw [hj]
      exact hTrnd j
    · rw [b4, hTdist]
      linarith
/-- The restart state with a wall at `x = W`, for a canvas at least 130 wide and
a random stream that spawns nothing, is a run with a wall ahead. -/
theorem wallRunStart_ahead (W : ℚ) (s : GameState) (hw : s.player.width = 30)
    (hh : s.player.height = 40) (hr : ∀ i, (15 : ℚ) / 1000 ≤ s.random i) (h1 : 130 ≤ W) :
    WallAhead W (wallRunStart W s) := by
  refine ⟨rfl, rfl, ⟨wallAt W, rfl, wallAt_width W, wallAt_y W, wallAt_height W, ?_, ?_⟩, rfl, rfl,
    ⟨rfl, rfl, hw, hh, rfl, rfl⟩, le_refl _, hr⟩
  · show W = W - 10 * 0
    ring
  · exact h1

/-- A run with a wall ahead never leaves the two situations: wall ahead, or
ended on the wall without a score. -/
theorem wall_run_invariant (W : ℚ) (s : GameState) (hW : W ≤ 240000)
    (h : WallAhead W s ∨ Crashed s) (n : Nat) :
    WallAhead W ((gameLoop W)^[n] s) ∨ Crashed ((gameLoop W)^[n] s) := by
  induction n with
  | zero => exact h
  | succ n ih =>
    rw [Function.iterate_succ_apply']
    rcases ih with ha | hc
    · rcases wall_tick W _ hW ha with h1 | h2
      · exact Or.inl h1.1
      · exact Or.inr h2
    · rw [gameLoop_stopped W _ hc.1]
      exact Or.inr hc

/-- A run with a wall ahead ends on the wall after finitely many ticks: each tick
brings the wall at least 2 closer. -/
theorem wall_run_crashes (W : ℚ) (hW : W ≤ 240000) (k : Nat) :
    ∀ s : GameState, WallAhead W s → W - 10 * s.distance - 130 < 2 * k →
      ∃ n, Crashed ((gameLoop W)^[n] s) := by
  induction k with
  | zero =>
    intro s h hk
    obtain ⟨-, -, ⟨o, -, -, -, -, hox, hfar⟩, -⟩ := h
    rw [hox] at hfar
    simp only [Nat.cast_zero, mul_zero] at hk
    linarith
  | succ k ih =>
    intro s h hk
    rcases wall_tick W s hW h with ⟨ha, hd⟩ | hc
    · have hk2 : W - 10 * (gameLoop W s).distance - 130 < 2 * k := by
        push_cast at hk
        linarith
      obtain ⟨n, hn⟩ := ih (gameLoop W s) ha hk2
      exact ⟨n + 1, by rw [Function.iterate_succ_apply]; exact hn⟩
    · exact ⟨1, by rw [Function.iterate_one]; exact hc⟩

/-- A run started with a wall at `x = W` and no spawn never scores and never
loses the wall, and it ends after finitely many ticks. -/
theorem wall_run_outcome (W : ℚ) (s : GameState) (hw : s.player.width = 30)
    (hh : s.player.height = 40) (hr : ∀ i, (15 : ℚ) / 1000 ≤ s.random i)
    (h1 : 130 ≤ W) (h2 : W ≤ 240000) :
    (∀ n, ((gameLoop W)^[n] (wallRunStart W s)).score = 0 ∧
      ∃ o : Obstacle, ((gameLoop W)^[n] (wallRunStart W s)).obstacles = [o] ∧
        0 ≤ o.x + o.width) ∧
    ∃ n, ((gameLoop W)^[n] (wallRunStart W s)).gameRunning = false := by
  have h0 := wallRunStart_ahead W s hw hh hr h1
  constructor
  · intro n
    rcases wall_run_invariant W _ h2 (Or.inl h0) n with ha | hc
    · obtain ⟨-, hscore, ⟨o, hobs, how, -, -, -, hfar⟩, -⟩ := ha
      exact ⟨hscore, o, hobs, by rw [how]; linarith⟩
    · exact ⟨hc.2.1, hc.2.2⟩
  · obtain ⟨k, hk⟩ := exists_nat_gt ((W - 10 * (wallRunStart W s).distance - 130) / 2)
    obtain ⟨n, hn⟩ := wall_run_crashes W h2 k _ h0 (by linarith)
    exact ⟨n, hn.1⟩

/-- Counterexample for C9: on a canvas 800 wide, the run started from the restart
state with one wall at `x = 800`, no jump and no spawn, never has a score other
than 0 and never has an empty obstacle store, so at no tick is the score 10
with the wall removed; and the run does not stay active: after some tick
`gameRunning` is false. -/
theorem wall_run_no_score :
    (¬ ∃ n, ((gameLoop 800)^[n] (wallRunStart 800 runningState)).score = 10 ∧
        ((gameLoop 800)^[n] (wallRunStart 800 runningState)).obstacles = [] ∧
        ((gameLoop 800)^[n] (wallRunStart 800 runningState)).gameRunning = true) ∧
    ∃ n, ((gameLoop 800)^[n] (wallRunStart 800 runningState)).gameRunning = false := by
  have h := wall_run_outcome 800 runningState rfl rfl
    (fun _ => by norm_num [runningState, initialState]) (by norm_num) (by norm_num)
  refine ⟨?_, h.2⟩
  rintro ⟨n, hs, -, -⟩
  rw [(h.1 n).1] at hs
  exact absurd hs (by norm_num)

/-- Claim C9 (amended). Starting from the restart state with a single wall
(`y = groundY - 30`, width 20, height 30) placed at `x = canvas.width`, for a
canvas between 130 and 240000 wide, and ticking with no jump input and no
further spawn: at every tick the score is still 0 and the wall is still in the
store with its right edge not past `x = 0`; the wall reaches the player, who
stands on the ground in its way, and after finitely many ticks the run has
ended (`gameRunning` is false). -/
theorem wall_run_ends_in_collision (W : ℚ) (s : GameState) (hw : s.player.width = 30)
    (hh : s.player.height = 40) (hr : ∀ i, (15 : ℚ) / 1000 ≤ s.random i)
    (h1 : 130 ≤ W) (h2 : W ≤ 240000) :
    (wallRunStart W s).obstacles = [newObstacle W (some ObstacleType.wall)] ∧
    (∀ n, ((gameLoop W)^[n] (wallRunStart W s)).score = 0 ∧
      ∃ o : Obstacle, ((gameLoop W)^[n] (wallRunStart W s)).obstacles = [o] ∧
        0 ≤ o.x + o.width) ∧
    ∃ n, ((gameLoop W)^[n] (wallRunStart W s)).gameRunning = false :=
  ⟨rfl, wall_run_outcome W s hw hh hr h1 h2⟩

/-- Witness for C9: a canvas 640 wide and the script's player. -/
theorem wall_run_ends_in_collision_witness :
    (runningState.player.width = 30 ∧ runningState.player.height = 40 ∧
      (∀ i, (15 : ℚ) / 1000 ≤ runningState.random i) ∧ (130 : ℚ) ≤ 640 ∧
      (640 : ℚ) ≤ 240000) ∧
    (wallRunStart 640 runningState).obstacles = [newObstacle 640 (some ObstacleType.wall)] ∧
    (∀ n, ((gameLoop 640)^[n] (wallRunStart 640 runningState)).score = 0 ∧
      ∃ o : Obstacle, ((gameLoop 640)^[n] (wallRunStart 640 runningState)).obstacles = [o] ∧
        0 ≤ o.x + o.width) ∧
    ∃ n, ((gameLoop 640)^[n] (wallRunStart 640 runningState)).gameRunning = false :=
  have hr : ∀ i, (15 : ℚ) / 1000 ≤ runningState.random i :=
    fun _ => by norm_num [runningState, initialState]
  ⟨⟨rfl, rfl, hr, by norm_num, by norm_num⟩,
    wall_run_ends_in_collision 640 runningState rfl rfl hr (by norm_num) (by norm_num)⟩

/-! ## Distance and speed along a run -/

/-- A tick from a non-negative distance: the distance stays non-negative, it
grows strictly when the game is running, and afterwards the multiplier is not
ahead of the distance. -/
theorem gameLoop_lags (W : ℚ) (s : GameState) (hd : 0 ≤ s.distance) :
    SpeedLags (gameLoop W s) ∧
    (s.gameRunning = true → s.distance < (gameLoop W s).distance) := by
  cases hr : s.gameRunning
  · rw [gameLoop_stopped W s hr]
    exact ⟨⟨hd, Or.inl hr⟩, fun h => by cases h⟩
  · obtain ⟨-, h2, h3⟩ := gameLoop_physics W s hr
    have hpos : s.distance < (gameLoop W s).distance := by
      rw [h3]
      simp only [gameSpeed]
      linarith
    refine ⟨⟨by linarith, Or.inr ?_⟩, fun _ => hpos⟩
    rw [h2]
    linarith

/-- When the multiplier is not ahead of the distance, a tick does not lower it. -/
theorem gameLoop_speed_mono (W : ℚ) (s : GameState) (h : SpeedLags s) :
    s.speedMultiplier ≤ (gameLoop W s).speedMultiplier := by
  cases hr : s.gameRunning
  · rw [gameLoop_stopped W s hr]
  · rw [(gameLoop_physics W s hr).2.1]
    rcases h.2 with h1 | h1
    · rw [hr] at h1; cases h1
    · exact h1

/-- Along the ticks from a non-negative distance, the distance stays
non-negative, and from the first tick on the multiplier is not ahead of it. -/
theorem iterate_lags (W : ℚ) (s : GameState) (hd : 0 ≤ s.distance) (n : Nat) :
    0 ≤ ((gameLoop W)^[n] s).distance ∧
    (1 ≤ n ∨ s.speedMultiplier ≤ 1 + s.distance / 1000 → SpeedLags ((gameLoop W)^[n] s)) := by
  induction n with
  | zero =>
    rw [Function.iterate_zero_apply]
    refine ⟨hd, fun h => ?_⟩
    rcases h with h | h
    · omega
    · exact ⟨hd, Or.inr h⟩
  | succ n ih =>
    rw [Function.iterate_succ_apply']
    have h := (gameLoop_lags W _ ih.1).1
    exact ⟨h.1, fun _ => h⟩

/-- Claim C11. Along any sequence of ticks that starts from a distance that is
not negative: the distance is never negative, it strictly increases on every
tick of the running game, and the speed multiplier never decreases from one
tick to the next (from the first tick on in general, and from the start too
when the stored multiplier is not ahead of the stored distance, as in the
restart state). -/
theorem run_monotone (W : ℚ) (s : GameState) (n : Nat) (hd : 0 ≤ s.distance) :
    0 ≤ ((gameLoop W)^[n] s).distance ∧
    (((gameLoop W)^[n] s).gameRunning = true →
      ((gameLoop W)^[n] s).distance < ((gameLoop W)^[n + 1] s).distance) ∧
    (1 ≤ n →
      ((gameLoop W)^[n] s).speedMultiplier ≤ ((gameLoop W)^[n + 1] s).speedMultiplier) ∧
    (s.speedMultiplier ≤ 1 + s.distance / 1000 →
      ((gameLoop W)^[n] s).speedMultiplier ≤ ((gameLoop W)^[n + 1] s).speedMultiplier) := by
  obtain ⟨h0, hl⟩ := iterate_lags W s hd n
  rw [Function.iterate_succ_apply']
  exact ⟨h0, (gameLoop_lags W _ h0).2, fun h => gameLoop_speed_mono W _ (hl (Or.inl h)),
    fun h => gameLoop_speed_mono W _ (hl (Or.inr h))⟩

/-- Witness for C11: the first two ticks after a restart. -/
theorem run_monotone_witness :
    ((0 : ℚ) ≤ (restartReset runningState).distance ∧
      ((gameLoop 800)^[0] (restartReset runningState)).gameRunning = true ∧ 1 ≤ 1 ∧
      (restartReset runningState).speedMultiplier
        ≤ 1 + (restartReset runningState).distance / 1000) ∧
    0 ≤ ((gameLoop 800)^[1] (restartReset runningState)).distance ∧
    ((gameLoop 800)^[0] (restartReset runningState)).distance
      < ((gameLoop 800)^[0 + 1] (restartReset runningState)).distance ∧
    ((gameLoop 800)^[0] (restartReset runningState)).speedMultiplier
      ≤ ((gameLoop 800)^[0 + 1] (restartReset runningState)).speedMultiplier ∧
    ((gameLoop 800)^[1] (restartReset runningState)).speedMultiplier
      ≤ ((gameLoop 800)^[1 + 1] (restartReset runningState)).speedMultiplier :=
  have hd : (0 : ℚ) ≤ (restartReset runningState).distance := le_refl _
  have hs : (restartReset runningState).speedMultiplier
      ≤ 1 + (restartReset runningState).distance / 1000 := by
    norm_num [restartReset]
  ⟨⟨hd, rfl, le_refl 1, hs⟩, (run_monotone 800 (restartReset runningState) 1 hd).1,
    (run_monotone 800 (restartReset runningState) 0 hd).2.1 rfl,
    (run_monotone 800 (restartReset runningState) 0 hd).2.2.2 hs,
    (run_monotone 800 (restartReset runningState) 1 hd).2.2.1 (le_refl 1)⟩

/-! ## The trail -/

/-- The trail after `updatePlayer`: a new point `pt` with life 20 is pushed, the
oldest point is shifted out when there are more than 10, every point ages by
one, and the points without life left are dropped. -/
theorem updatePlayer_trail (s : GameState) :
    ∃ pt : TrailPoint, pt.life = 20 ∧ (updatePlayer s).player.trail
      = ((if (s.player.trail ++ [pt]).length > 10 then (s.player.trail ++ [pt]).tail
          else s.player.trail ++ [pt]).map
            fun point => { point with life := point.life - 1 }).filter
          fun point => point.life > 0 := by
  unfold updatePlayer
  cases hg : s.player.onGround
  · by_cases hp : groundY - s.player.height ≤ s.player.y + (s.player.velocityY + gravity)
    · exact ⟨⟨s.player.x + s.player.width / 2, groundY - s.player.height + s.player.height / 2,
        20⟩, rfl, by simp [hg, hp]⟩
    · exact ⟨⟨s.player.x + s.player.width / 2,
        s.player.y + (s.player.velocityY + gravity) + s.player.height / 2, 20⟩, rfl,
        by simp [hg, hp]⟩
  · by_cases hp : groundY - s.player.height ≤ s.player.y + s.player.velocityY
    · exact ⟨⟨s.player.x + s.player.width / 2, groundY - s.player.height + s.player.height / 2,
        20⟩, rfl, by simp [hg, hp]⟩
    · exact ⟨⟨s.player.x + s.player.width / 2,
        s.player.y + s.player.velocityY + s.player.height / 2, 20⟩, rfl, by simp [hg, hp]⟩

/-- After `updatePlayer` every trail point has life left, and the trail is no
longer than 10 if it was not before. -/
theorem updatePlayer_trail_bounds (s : GameState) :
    (∀ point ∈ (updatePlayer s).player.trail, 0 < point.life) ∧
    (s.player.trail.length ≤ 10 → (updatePlayer s).player.trail.length ≤ 10) := by
  obtain ⟨pt, -, hpt⟩ := updatePlayer_trail s
  constructor
  · intro point hp
    rw [hpt] at hp
    simpa using (List.mem_filter.1 hp).2
  · intro h
    rw [hpt]
    refine le_trans (List.length_filter_le _ _) ?_
    rw [List.length_map]
    split
    · simp only [List.length_tail, List.length_append, List.length_singleton]
      omega
    · omega

/-- The trail is kept by `jump`. -/
theorem jump_trail (s : GameState) : (jump s).player.trail = s.player.trail := by
  unfold jump
  split <;> rfl

/-- In every state of a run the trail has at most 10 points, all with life left. -/
theorem trail_of_reachable (W : ℚ) (s : GameState) (h : Reachable W s) :
    s.player.trail.length ≤ 10 ∧ ∀ point ∈ s.player.trail, 0 < point.life := by
  induction h with
  | restart s hw hh => simp [restartReset]
  | jump s _ ih => rw [jump_trail]; exact ih
  | tick s _ ih =>
    cases hr : s.gameRunning
    · rw [gameLoop_stopped W s hr]; exact ih
    · rw [(gameLoop_physics W s hr).1]
      exact ⟨(updatePlayer_trail_bounds s).2 ih.1, (updatePlayer_trail_bounds s).1⟩

/-- Claim C12. When the trail has at most 10 entries, after `updatePlayer` it has
at most 10 entries, and every entry kept has `life > 0`; hence in every state
of a run (reached from the restart state by jumps and ticks) the trail has at
most 10 entries, each with `life > 0`. -/
theorem trail_bounded (W : ℚ) (s t : GameState) (h : s.player.trail.length ≤ 10)
    (hr : Reachable W t) :
    (updatePlayer s).player.trail.length ≤ 10 ∧
    (∀ point ∈ (updatePlayer s).player.trail, 0 < point.life) ∧
    t.player.trail.length ≤ 10 ∧
    (∀ point ∈ t.player.trail, 0 < point.life) :=
  ⟨(updatePlayer_trail_bounds s).2 h, (updatePlayer_trail_bounds s).1,
    (trail_of_reachable W t hr).1, (trail_of_reachable W t hr).2⟩

/-- Witness for C12: the player of the script (empty trail), and the state one
tick after a jump from the restart state. -/
theorem trail_bounded_witness :
    (runningState.player.trail.length ≤ 10 ∧
      Reachable 800 (gameLoop 800 (jump (restartReset runningState)))) ∧
    (updatePlayer runningState).player.trail.length ≤ 10 ∧
    (∀ point ∈ (updatePlayer runningState).player.trail, 0 < point.life) ∧
    (gameLoop 800 (jump (restartReset runningState))).player.trail.length ≤ 10 ∧
    (∀ point ∈ (gameLoop 800 (jump (restartReset runningState))).player.trail,
      0 < point.life) :=
  have h1 : runningState.player.trail.length ≤ 10 := by
    simp [runningState, initialState, initialPlayer]
  have h2 : Reachable 800 (gameLoop 800 (jump (restartReset runningState))) :=
    Reachable.tick _ (Reachable.jump _ (Reachable.restart runningState rfl rfl))
  ⟨⟨h1, h2⟩, trail_bounded 800 runningState _ h1 h2⟩

/-! ## Scrolling and removal of obstacles and coins -/

/-- Claim C13, the code at the failing input. The store holds two walls, at
`x = -19` and `x = 50`, and the speed is 2. `updateObstacles` moves the first
wall to `x = -21`, off the screen, and splices it out; the second wall, now at
index 0, is not visited any more: it stays in the store with `x = 50`, not 48.
The same happens to the second of two coins when the first is removed. -/
theorem scroll_skips_after_removal :
    gameSpeed * wallPairState.speedMultiplier = 2 ∧
    wallAt 50 ∈ wallPairState.obstacles ∧
    (updateObstacles wallPairState).obstacles = [wallAt 50] ∧
    (wallAt 50).x ≠ (wallAt 50).x - gameSpeed * wallPairState.speedMultiplier ∧
    coinAt 50 200 ∈ coinPairState.coins ∧
    (updateCoins coinPairState).coins = [coinAt 50 200] ∧
    (coinAt 50 200).x ≠ (coinAt 50 200).x - gameSpeed * coinPairState.speedMultiplier := by
  have hsp : gameSpeed * wallPairState.speedMultiplier = 2 := by
    norm_num [gameSpeed, wallPairState, runningState, initialState]
  have hsp2 : gameSpeed * coinPairState.speedMultiplier = 2 := by
    norm_num [gameSpeed, coinPairState, runningState, initialState]
  refine ⟨hsp, by simp [wallPairState], ?_, by rw [hsp]; norm_num, by simp [coinPairState], ?_,
    by rw [hsp2]; norm_num [coinAt]⟩
  · have hoff : (wallAt (-19)).x - gameSpeed * wallPairState.speedMultiplier
        + (wallAt (-19)).width < 0 := by
      rw [hsp]; norm_num
    have h1 : updateObstaclesCb (wallAt (-19)) 0 wallPairState
        = { wallPairState with obstacles := [wallAt 50], score := wallPairState.score + 10 } := by
      simp only [updateObstaclesCb, hoff, if_true]
      rfl
    unfold updateObstacles forEach
    have hlen : wallPairState.obstacles.length = 2 := rfl
    rw [hlen]
    have h0 : wallPairState.obstacles[0]? = some (wallAt (-19)) := rfl
    rw [forEachFrom]
    simp only [h0, h1]
    rfl
  · have hoff : (coinAt (-14) 200).x - gameSpeed * coinPairState.speedMultiplier
        + (coinAt (-14) 200).size < 0 := by
      rw [hsp2]; norm_num [coinAt]
    have h1 : updateCoinsCb (coinAt (-14) 200) 0 coinPairState
        = { coinPairState with coins := [coinAt 50 200] } := by
      simp only [updateCoinsCb, hoff, if_true]
      rfl
    unfold updateCoins forEach
    have hlen : coinPairState.coins.length = 2 := rfl
    rw [hlen]
    have h0 : coinPairState.coins[0]? = some (coinAt (-14) 200) := rfl
    rw [forEachFrom]
    simp only [h0, h1]
    rfl

/-- After `updateObstacles` no obstacle of the store has its right edge past
`x = 0`, if none had before. -/
theorem updateObstacles_onscreen (s : GameState)
    (h : ∀ o ∈ s.obstacles, 0 ≤ o.x + o.width) :
    ∀ o ∈ (updateObstacles s).obstacles, 0 ≤ o.x + o.width := by
  unfold updateObstacles forEach
  refine forEachFrom_rel (fun s => s.obstacles) updateObstaclesCb
    (fun a b => (∀ o ∈ a.obstacles, 0 ≤ o.x + o.width) → ∀ o ∈ b.obstacles, 0 ≤ o.x + o.width)
    (fun _ h => h) (fun _ _ _ h g x => g (h x)) ?_ _ _ s h
  intro o k a _ ha
  unfold updateObstaclesCb
  simp only []
  split
  · intro q hq
    obtain ⟨i, hi, hne, hget⟩ := List.mem_eraseIdx_iff_getElem.1 hq
    rw [List.getElem_set_ne (Ne.symm hne)] at hget
    rw [← hget]
    exact ha _ (List.getElem_mem _)
  · intro q hq
    rcases List.mem_or_eq_of_mem_set hq with h1 | h1
    · exact ha q h1
    · rw [h1]
      exact not_lt.1 (by assumption)

/-- The spawning lines add at most one obstacle, at `x = W` with a width of 20
or 30. -/
theorem spawnStep_obstacles (W : ℚ) (s : GameState) :
    (spawnStep W s).obstacles = s.obstacles ∨
    ∃ o : Obstacle, (spawnStep W s).obstacles = s.obstacles ++ [o] ∧ o.x = W ∧
      (o.width = 20 ∨ o.width = 30) := by
  have hnew : ∀ ty : Option ObstacleType, (newObstacle W ty).x = W ∧
      ((newObstacle W ty).width = 20 ∨ (newObstacle W ty).width = 30) := by
    intro ty
    refine ⟨rfl, ?_⟩
    simp only [newObstacle]
    split
    · exact Or.inl rfl
    · exact Or.inr rfl
  unfold spawnStep
  simp only [mathRandom]
  split_ifs
  · exact Or.inr ⟨_, rfl, hnew _⟩
  · exact Or.inr ⟨_, rfl, hnew _⟩
  · exact Or.inl rfl
  · exact Or.inl rfl

/-- The obstacle store is not touched by `checkCollisions`. -/
theorem checkCollisions_obstacles (s : GameState) :
    (checkCollisions s).obstacles = s.obstacles := by
  obtain ⟨burst, rnd, -, -, heq⟩ := checkCollisions_spec s
  rw [heq]

/-- For a canvas of non-negative width, a tick leaves no obstacle in the store
with its right edge past `x = 0`, if there was none before. -/
theorem gameLoop_onscreen (W : ℚ) (hW : 0 ≤ W) (s : GameState)
    (h : ∀ o ∈ s.obstacles, 0 ≤ o.x + o.width) :
    ∀ o ∈ (gameLoop W s).obstacles, 0 ≤ o.x + o.width := by
  cases hr : s.gameRunning
  · rw [gameLoop_stopped W s hr]; exact h
  · rw [gameLoop_running W s hr]
    have h1 : ∀ o ∈ (updatePlayer (spawnStep W (advanceDistance s))).obstacles,
        0 ≤ o.x + o.width := by
      show ∀ o ∈ (spawnStep W (advanceDistance s)).obstacles, 0 ≤ o.x + o.width
      rcases spawnStep_obstacles W (advanceDistance s) with he | ⟨q, he, hx, hwd⟩
      · rw [he]; exact h
      · rw [he]
        intro o ho
        rcases List.mem_append.1 ho with ho | ho
        · exact h o ho
        · rw [List.mem_singleton.1 ho, hx]
          rcases hwd with hwd | hwd <;> rw [hwd] <;> linarith
    have h2 := updateObstacles_onscreen _ h1
    obtain ⟨-, -, -, -, -, c4, -, -⟩ := updateCoins_effect
      (updateObstacles (updatePlayer (spawnStep W (advanceDistance s))))
    obtain ⟨-, -, -, -, -, b6, -⟩ := updateBackground_frame W (updateCoins
      (updateObstacles (updatePlayer (spawnStep W (advanceDistance s)))))
    obtain ⟨-, -, -, -, -, p6, -⟩ := updateParticles_frame (updateBackground W (updateCoins
      (updateObstacles (updatePlayer (spawnStep W (advanceDistance s))))))
    rw [checkCollisions_obstacles, p6, b6, c4]
    exact h2

/-- Claim C14. When every obstacle of the store satisfies `x + width ≥ 0`, every
obstacle left in the store after `updateObstacles` satisfies it too; so, for a
canvas of non-negative width, in every state of a run (reached from the
restart state by jumps and ticks) no obstacle of the store is fully off the
left edge. -/
theorem offscreen_obstacles_deleted (W : ℚ) (s t : GameState)
    (h : ∀ o ∈ s.obstacles, 0 ≤ o.x + o.width) (hW : 0 ≤ W) (hr : Reachable W t) :
    (∀ o ∈ (updateObstacles s).obstacles, 0 ≤ o.x + o.width) ∧
    (∀ o ∈ t.obstacles, 0 ≤ o.x + o.width) := by
  refine ⟨updateObstacles_onscreen s h, ?_⟩
  induction hr with
  | restart s hw hh => simp [restartReset]
  | jump s _ ih =>
    have : (jump s).obstacles = s.obstacles := by
      unfold jump
      split <;> rfl
    rw [this]; exact ih
  | tick s _ ih => exact gameLoop_onscreen W hW s ih

/-- Witness for C14: a store with one wall about to leave the screen, and the
state one tick after the restart. -/
theorem offscreen_obstacles_deleted_witness :
    ((∀ o ∈ wallPairState.obstacles, 0 ≤ o.x + o.width) ∧ (0 : ℚ) ≤ 800 ∧
      Reachable 800 (gameLoop 800 (restartReset runningState))) ∧
    (∀ o ∈ (updateObstacles wallPairState).obstacles, 0 ≤ o.x + o.width) ∧
    (∀ o ∈ (gameLoop 800 (restartReset runningState)).obstacles, 0 ≤ o.x + o.width) :=
  have h1 : ∀ o ∈ wallPairState.obstacles, 0 ≤ o.x + o.width := by
    intro o ho
    simp only [wallPairState, List.mem_cons, List.mem_singleton, List.not_mem_nil,
      or_false] at ho
    rcases ho with rfl | rfl <;> norm_num
  have h2 : (0 : ℚ) ≤ 800 := by norm_num
  have h3 : Reachable 800 (gameLoop 800 (restartReset runningState)) :=
    Reachable.tick _ (Reachable.restart runningState rfl rfl)
  ⟨⟨h1, h2, h3⟩, offscreen_obstacles_deleted 800 wallPairState _ h1 h2 h3⟩

/-! ## The end of a run -/

/-- No spawn or update step changes `gameRunning`. -/
theorem stages_keep_gameRunning (W : ℚ) (s : GameState) :
    (advanceDistance s).gameRunning = s.gameRunning ∧
    (spawnStep W s).gameRunning = s.gameRunning ∧
    (updatePlayer s).gameRunning = s.gameRunning ∧
    (updateObstacles s).gameRunning = s.gameRunning ∧
    (updateCoins s).gameRunning = s.gameRunning ∧
    (updateBackground W s).gameRunning = s.gameRunning ∧
    (updateParticles s).gameRunning = s.gameRunning := by
  obtain ⟨-, -, -, -, -, -, -, h4⟩ := updateObstacles_effect s
  obtain ⟨-, -, -, -, -, -, -, h5⟩ := updateCoins_effect s
  exact ⟨rfl, (spawnStep_frame W s).2.2.2, rfl, h4, h5, (updateBackground_frame W s).1,
    (updateParticles_frame s).1⟩

/-- The spawn and update stages of a tick keep `gameRunning`. -/
theorem beforeCollisions_gameRunning (W : ℚ) (s : GameState) :
    (beforeCollisions W s).gameRunning = s.gameRunning := by
  unfold beforeCollisions
  rw [(stages_keep_gameRunning W _).2.2.2.2.2.2, (stages_keep_gameRunning W _).2.2.2.2.2.1,
    (stages_keep_gameRunning W _).2.2.2.2.1, (stages_keep_gameRunning W _).2.2.2.1,
    (stages_keep_gameRunning W _).2.2.1, (stages_keep_gameRunning W _).2.1]
  rfl

/-- The run flag after `checkCollisions`: it is cleared exactly when it was
already clear or an obstacle of the store overlaps the player. -/
theorem checkCollisions_gameRunning (s : GameState) :
    (checkCollisions s).gameRunning
      = (s.gameRunning && !(s.obstacles.any fun o => overlap s.player.box o.box)) := by
  obtain ⟨burst, rnd, -, -, heq⟩ := checkCollisions_spec s
  rw [heq]

/-- Claim C15. A tick of a running game is the spawn and update stages followed
by `checkCollisions`; the stages leave `gameRunning` true, each of them keeps
the flag whatever the state, and after the tick `gameRunning` is false if and
only if, after the update stage, at least one obstacle of the store strictly
overlaps the player's box. -/
theorem run_ends_only_by_collision (W : ℚ) (s : GameState) (h : s.gameRunning = true) :
    gameLoop W s = checkCollisions (beforeCollisions W s) ∧
    (beforeCollisions W s).gameRunning = true ∧
    ((gameLoop W s).gameRunning = false ↔
      ∃ o ∈ (beforeCollisions W s).obstacles,
        overlap (beforeCollisions W s).player.box o.box = true) ∧
    (∀ t : GameState,
      (advanceDistance t).gameRunning = t.gameRunning ∧
      (spawnStep W t).gameRunning = t.gameRunning ∧
      (updatePlayer t).gameRunning = t.gameRunning ∧
      (updateObstacles t).gameRunning = t.gameRunning ∧
      (updateCoins t).gameRunning = t.gameRunning ∧
      (updateBackground W t).gameRunning = t.gameRunning ∧
      (updateParticles t).gameRunning = t.gameRunning) := by
  have hb : (beforeCollisions W s).gameRunning = true :=
    (beforeCollisions_gameRunning W s).trans h
  have hl : gameLoop W s = checkCollisions (beforeCollisions W s) := gameLoop_running W s h
  refine ⟨hl, hb, ?_, stages_keep_gameRunning W⟩
  rw [hl, checkCollisions_gameRunning, hb]
  simp only [Bool.true_and, Bool.not_eq_false', List.any_eq_true]

/-- Witness for C15: a tick from the running state with a wall inside the
player's box. -/
theorem run_ends_only_by_collision_witness :
    hitState.gameRunning = true ∧
    gameLoop 800 hitState = checkCollisions (beforeCollisions 800 hitState) ∧
    (beforeCollisions 800 hitState).gameRunning = true ∧
    ((gameLoop 800 hitState).gameRunning = false ↔
      ∃ o ∈ (beforeCollisions 800 hitState).obstacles,
        overlap (beforeCollisions 800 hitState).player.box o.box = true) :=
  ⟨rfl, (run_ends_only_by_collision 800 hitState rfl).1,
    (run_ends_only_by_collision 800 hitState rfl).2.1,
    (run_ends_only_by_collision 800 hitState rfl).2.2.1⟩

/-! ## Several obstacles hit at once -/

/-- The number of particles after `checkCollisions`: 15 more per overlapping
obstacle. -/
theorem checkCollisions_particles_length (s : GameState) :
    (checkCollisions s).particles.length
      = s.particles.length + 15 * s.obstacles.countP (fun o => overlap s.player.box o.box) := by
  obtain ⟨burst, rnd, hlen, -, heq⟩ := checkCollisions_spec s
  rw [heq]
  simp [hlen]

/-- The score and the distance are not touched by `checkCollisions`. -/
theorem checkCollisions_score_distance (s : GameState) :
    (checkCollisions s).score = s.score ∧ (checkCollisions s).distance = s.distance := by
  obtain ⟨burst, rnd, -, -, heq⟩ := checkCollisions_spec s
  rw [heq]
  exact ⟨rfl, rfl⟩

/-- A wall standing at 110 or at 115 overlaps the player of the script. -/
theorem wall_overlaps_initialPlayer :
    overlap initialPlayer.box (wallAt 110).box = true ∧
    overlap initialPlayer.box (wallAt 115).box = true := by
  constructor <;> norm_num [initialPlayer, overlap, Player.box, Obstacle.box]

/-- Counterexample for C16: with the two walls of `doubleHitState` both inside
the player's box, `checkCollisions` adds 30 particles; with only the first of
them in the store (`hitState`) it adds 15. -/
theorem double_overlap_adds_two_bursts :
    (∀ o ∈ doubleHitState.obstacles, overlap doubleHitState.player.box o.box = true) ∧
    hitState = { doubleHitState with obstacles := [wallAt 110] } ∧
    (checkCollisions doubleHitState).particles.length = 30 ∧
    (checkCollisions hitState).particles.length = 15 ∧
    (checkCollisions doubleHitState).particles.length
      ≠ (checkCollisions hitState).particles.length := by
  have h1 : overlap doubleHitState.player.box (wallAt 110).box = true :=
    wall_overlaps_initialPlayer.1
  have h2 : overlap doubleHitState.player.box (wallAt 115).box = true :=
    wall_overlaps_initialPlayer.2
  have e2 : (checkCollisions doubleHitState).particles.length = 30 := by
    rw [checkCollisions_particles_length]
    simp [doubleHitState, List.countP_cons, wall_overlaps_initialPlayer.1,
      wall_overlaps_initialPlayer.2, runningState, initialState]
  have e1 : (checkCollisions hitState).particles.length = 15 := by
    rw [checkCollisions_particles_length]
    simp [hitState, List.countP_cons, wall_overlaps_initialPlayer.1, runningState,
      initialState]
  refine ⟨?_, rfl, e2, e1, by rw [e1, e2]; decide⟩
  intro o ho
  simp only [doubleHitState, List.mem_cons, List.mem_singleton, List.not_mem_nil,
    or_false] at ho
  rcases ho with rfl | rfl
  · exact h1
  · exact h2

/-- Claim C16 (amended). When an obstacle `o` of the store overlaps the player,
`checkCollisions` leaves `gameRunning` (false), the score and the distance
exactly as it would if `o` were the only obstacle; the particle store is not
the same: it receives one burst of 15 particles per overlapping obstacle, 15
times the number of overlapping obstacles in all, against 15 for `o` alone. -/
theorem multiple_overlaps (s : GameState) (o : Obstacle) (ho : o ∈ s.obstacles)
    (hov : overlap s.player.box o.box = true) :
    (checkCollisions s).gameRunning = false ∧
    (checkCollisions s).gameRunning
      = (checkCollisions { s with obstacles := [o] }).gameRunning ∧
    (checkCollisions s).score = (checkCollisions { s with obstacles := [o] }).score ∧
    (checkCollisions s).distance = (checkCollisions { s with obstacles := [o] }).distance ∧
    (checkCollisions { s with obstacles := [o] }).particles.length
      = s.particles.length + 15 ∧
    (checkCollisions s).particles.length
      = s.particles.length + 15 * s.obstacles.countP (fun q => overlap s.player.box q.box) ∧
    1 ≤ s.obstacles.countP (fun q => overlap s.player.box q.box) := by
  have hany : (s.obstacles.any fun q => overlap s.player.box q.box) = true :=
    List.any_eq_true.2 ⟨o, ho, hov⟩
  have hg : (checkCollisions s).gameRunning = false := by
    rw [checkCollisions_gameRunning, hany]
    simp
  have hg1 : (checkCollisions { s with obstacles := [o] }).gameRunning = false := by
    rw [checkCollisions_gameRunning]
    simp [hov]
  refine ⟨hg, hg.trans hg1.symm, ?_, ?_, ?_, checkCollisions_particles_length s,
    List.countP_pos_iff.2 ⟨o, ho, hov⟩⟩
  · rw [(checkCollisions_score_distance s).1, (checkCollisions_score_distance _).1]
  · rw [(checkCollisions_score_distance s).2, (checkCollisions_score_distance _).2]
  · rw [checkCollisions_particles_length]
    simp [List.countP_cons, hov]

/-- Witness for C16: the two walls of `doubleHitState`. -/
theorem multiple_overlaps_witness :
    (wallAt 115 ∈ doubleHitState.obstacles ∧
      overlap doubleHitState.player.box (wallAt 115).box = true) ∧
    (checkCollisions doubleHitState).gameRunning = false ∧
    (checkCollisions doubleHitState).gameRunning
      = (checkCollisions { doubleHitState with obstacles := [wallAt 115] }).gameRunning ∧
    (checkCollisions doubleHitState).score
      = (checkCollisions { doubleHitState with obstacles := [wallAt 115] }).score ∧
    (checkCollisions doubleHitState).distance
      = (checkCollisions { doubleHitState with obstacles := [wallAt 115] }).distance ∧
    (checkCollisions { doubleHitState with obstacles := [wallAt 115] }).particles.length
      = doubleHitState.particles.length + 15 ∧
    (checkCollisions doubleHitState).particles.length
      = doubleHitState.particles.length + 15 * doubleHitState.obstacles.countP
          (fun q => overlap doubleHitState.player.box q.box) ∧
    1 ≤ doubleHitState.obstacles.countP (fun q => overlap doubleHitState.player.box q.box) :=
  have h1 : wallAt 115 ∈ doubleHitState.obstacles := by simp [doubleHitState]
  have h2 : overlap doubleHitState.player.box (wallAt 115).box = true :=
    wall_overlaps_initialPlayer.2
  ⟨⟨h1, h2⟩, multiple_overlaps doubleHitState (wallAt 115) h1 h2⟩

/-! ## Pits -/

/-- Claim C17. A pit made by `createObstacle` has its box at `y = groundY`,
wherever it has scrolled to; for a player with `y + height ≤ groundY` (which
holds after every `updatePlayer`) the box test of `checkCollisions` against
it is false, at any `x`; so a store that holds only obstacles placed at
`y = groundY` makes `checkCollisions` change nothing, and the run goes on. -/
theorem pit_never_collides (W x : ℚ) (s : GameState)
    (h : s.player.y + s.player.height ≤ groundY) :
    (pitAt W x).y = groundY ∧ (pitAt W x).type = some ObstacleType.pit ∧
    overlap s.player.box (pitAt W x).box = false ∧
    (∀ t : GameState,
      (updatePlayer t).player.y + (updatePlayer t).player.height ≤ groundY) ∧
    (∀ o ∈ s.obstacles, o.y = groundY → overlap s.player.box o.box = false) ∧
    ((∀ o ∈ s.obstacles, o.y = groundY) → checkCollisions s = s) := by
  have hy : (pitAt W x).y = groundY := by simp [pitAt, newObstacle]
  have hno : ∀ o : Obstacle, o.y = groundY → overlap s.player.box o.box = false := by
    intro o ho
    simp only [overlap, Player.box, Obstacle.box, ho, Bool.and_eq_false_imp, Bool.and_eq_true,
      decide_eq_true_eq, decide_eq_false_iff_not, not_lt, gt_iff_lt]
    exact fun _ => h
  refine ⟨hy, rfl, hno _ hy, fun t => ?_, fun o _ ho => hno o ho, fun hall => ?_⟩
  · obtain ⟨hle, hh, -, -⟩ := updatePlayer_clamps t
    rw [hh]
    linarith
  · exact checkCollisions_none s fun o ho => hno o (hall o ho)

/-- Witness for C17: the player of the script standing over a pit. -/
theorem pit_never_collides_witness :
    pitState.player.y + pitState.player.height ≤ groundY ∧
    overlap pitState.player.box (pitAt 800 100).box = false ∧
    checkCollisions pitState = pitState :=
  have h : pitState.player.y + pitState.player.height ≤ groundY := by
    norm_num [pitState, runningState, initialState, initialPlayer, groundY]
  ⟨h, (pit_never_collides 800 100 pitState h).2.2.1,
    (pit_never_collides 800 100 pitState h).2.2.2.2.2 (by
      intro o ho
      rw [List.mem_singleton.1 ho]
      simp [pitAt, newObstacle])⟩

/-! ## Removal while iterating -/

/-- Once the index is past the end of the array, the loop of `forEach` visits
nothing more. -/
theorem forEachFrom_beyond {α : Type} (arr : GameState → List α)
    (cb : α → Nat → GameState → GameState) :
    ∀ n k s, (arr s).length ≤ k → forEachFrom arr cb n k s = s := by
  intro n
  induction n with
  | zero => intro k s _; rfl
  | succ n ih =>
    intro k s hk
    unfold forEachFrom
    rw [List.getElem?_eq_none hk]
    exact ih (k + 1) s (by omega)

/-- When the callback only writes or removes the element it visits, the loop of
`forEach` from index `k` on leaves the elements below `k` as they are. -/
theorem forEachFrom_below {α : Type} (arr : GameState → List α)
    (cb : α → Nat → GameState → GameState)
    (hcb : ∀ a k s j, j < k → (arr s)[k]? = some a → (arr (cb a k s))[j]? = (arr s)[j]?) :
    ∀ n k s j, j < k → (arr (forEachFrom arr cb n k s))[j]? = (arr s)[j]? := by
  intro n
  induction n with
  | zero => intro k s j _; rfl
  | succ n ih =>
    intro k s j hj
    unfold forEachFrom
    cases h : (arr s)[k]? with
    | none => exact ih (k + 1) s j (by omega)
    | some a =>
      simp only []
      rw [ih (k + 1) (cb a k s) j (by omega), hcb a k s j hj h]

/-- When the callback removes the element it visits at index `k`, the element
that followed it takes its place and is passed over: it is still at index `k`,
as it was, when the loop ends. -/
theorem forEachFrom_skip {α : Type} (arr : GameState → List α)
    (cb : α → Nat → GameState → GameState)
    (hcb : ∀ a k s j, j < k → (arr s)[k]? = some a → (arr (cb a k s))[j]? = (arr s)[j]?)
    (n k : Nat) (s : GameState) (a b : α) (ha : (arr s)[k]? = some a)
    (hrem : arr (cb a k s) = (arr s).eraseIdx k) (hb : (arr s)[k + 1]? = some b) :
    (arr (forEachFrom arr cb (n + 1) k s))[k]? = some b := by
  unfold forEachFrom
  rw [ha]
  simp only []
  rw [forEachFrom_below arr cb hcb n (k + 1) (cb a k s) k (by omega), hrem,
    List.getElem?_eraseIdx, if_neg (by omega), hb]

/-- Removing the element just written at an index is removing the element that
was there. -/
theorem eraseIdx_set_self {α : Type} (l : List α) (k : Nat) (a : α) :
    (l.set k a).eraseIdx k = l.eraseIdx k := by
  induction l generalizing k with
  | nil => rfl
  | cons x l ih =>
    cases k with
    | zero => rfl
    | succ k => simp [ih]

/-- Writing or removing at index `k` leaves the elements below `k` as they are. -/
theorem getElem?_set_eraseIdx_below {α : Type} (l : List α) (k j : Nat) (a : α) (hj : j < k) :
    (l.set k a)[j]? = l[j]? ∧ (l.eraseIdx k)[j]? = l[j]? := by
  constructor
  · rw [List.getElem?_set, if_neg (by omega)]
  · rw [List.getElem?_eraseIdx, if_pos hj]

/-- The particle store after the callback of `updateParticles`: the visited
particle is removed when it has no life left after ageing, and written back
otherwise. -/
theorem updateParticlesCb_particles (q : Particle) (k : Nat) (s : GameState) :
    (updateParticlesCb q k s).particles
      = if q.life - 1 ≤ 0 then s.particles.eraseIdx k
        else s.particles.set k
          { q with x := q.x + q.vx, y := q.y + q.vy, vy := q.vy + 3 / 10, life := q.life - 1 } := by
  unfold updateParticlesCb
  simp only []
  split
  · exact eraseIdx_set_self _ _ _
  · rfl

/-- The obstacle store after the callback of `updateObstacles`. -/
theorem updateObstaclesCb_obstacles (o : Obstacle) (k : Nat) (s : GameState) :
    (updateObstaclesCb o k s).obstacles
      = if o.x - gameSpeed * s.speedMultiplier + o.width < 0 then s.obstacles.eraseIdx k
        else s.obstacles.set k { o with x := o.x - gameSpeed * s.speedMultiplier } := by
  unfold updateObstaclesCb
  simp only []
  split
  · exact eraseIdx_set_self _ _ _
  · rfl

/-- The coin store after the callback of `updateCoins`: the visited coin is
removed when it is off-screen or collected, and written back otherwise. -/
theorem updateCoinsCb_coins (c : Coin) (k : Nat) (s : GameState) :
    (updateCoinsCb c k s).coins
      = if c.x - gameSpeed * s.speedMultiplier + c.size < 0 ∨
            (c.collected = false ∧
              coinHitsPlayer { c with x := c.x - gameSpeed * s.speedMultiplier } s.player = true)
        then s.coins.eraseIdx k
        else s.coins.set k
          { c with x := c.x - gameSpeed * s.speedMultiplier, rotation := c.rotation + 1 / 10 } := by
  have hhit : coinHitsPlayer
      { c with x := c.x - gameSpeed * s.speedMultiplier, rotation := c.rotation + 1 / 10 }
      s.player = coinHitsPlayer { c with x := c.x - gameSpeed * s.speedMultiplier } s.player :=
    rfl
  unfold updateCoinsCb
  simp only []
  by_cases hoff : c.x - gameSpeed * s.speedMultiplier + c.size < 0
  · rw [if_pos hoff, if_pos (Or.inl hoff)]
    exact eraseIdx_set_self _ _ _
  · rw [if_neg hoff]
    by_cases hcol : (!c.collected && coinHitsPlayer
        { c with x := c.x - gameSpeed * s.speedMultiplier, rotation := c.rotation + 1 / 10 }
        s.player) = true
    · rw [if_pos hcol]
      have hc : c.collected = false ∧ coinHitsPlayer
          { c with x := c.x - gameSpeed * s.speedMultiplier } s.player = true := by
        rw [← hhit]
        simpa using hcol
      rw [if_pos (Or.inr hc)]
      obtain ⟨burst, rnd, -, -, heq⟩ := createParticles_spec
        (c.x - gameSpeed * s.speedMultiplier + c.size / 2) (c.y + c.size / 2)
        (Color.hex "#ffff00") 8
        { s with
          coins := (s.coins.set k
            { c with x := c.x - gameSpeed * s.speedMultiplier,
                     rotation := c.rotation + 1 / 10 }).set k
            { c with x := c.x - gameSpeed * s.speedMultiplier,
                     rotation := c.rotation + 1 / 10, collected := true }
          score := s.score + 50 }
      rw [heq]
      show ((s.coins.set k _).set k _).eraseIdx k = _
      rw [eraseIdx_set_self, eraseIdx_set_self]
    · rw [if_neg hcol]
      have hc : ¬ (c.x - gameSpeed * s.speedMultiplier + c.size < 0 ∨
          (c.collected = false ∧ coinHitsPlayer
            { c with x := c.x - gameSpeed * s.speedMultiplier } s.player = true)) := by
        rintro (h1 | h1)
        · exact hoff h1
        · apply hcol
          rw [hhit]
          simpa using h1
      rw [if_neg hc]
/-- A particle with life left after ageing is kept, aged. -/
theorem lifeSkip_keep (l : Int) (rest : List Int) (h : ¬ l - 1 ≤ 0) :
    lifeSkip (l :: rest) = (l - 1) :: lifeSkip rest := by
  rw [lifeSkip.eq_def]
  simp only [if_neg h]

/-- A particle without life left is removed, and the next one is passed over. -/
theorem lifeSkip_drop_cons (l m : Int) (rest : List Int) (h : l - 1 ≤ 0) :
    lifeSkip (l :: m :: rest) = m :: lifeSkip rest := by
  rw [lifeSkip, if_pos h]

/-- A last particle without life left is removed. -/
theorem lifeSkip_drop_nil (l : Int) (h : l - 1 ≤ 0) : lifeSkip [l] = [] := by
  rw [lifeSkip, if_pos h]

/-- The loop of `updateParticles` seen on the lives: with `done` the particles
below the current index and `todo` the ones from it on, the loop ends with the
lives of `done` followed by `lifeSkip` of the lives of `todo`. -/
theorem updateParticles_loop_lives :
    ∀ (n k : Nat) (s : GameState) (done todo : List Particle),
      s.particles = done ++ todo → done.length = k → todo.length ≤ n →
      ((forEachFrom (fun s => s.particles) updateParticlesCb n k s).particles.map
          fun q => q.life)
        = (done.map fun q => q.life) ++ lifeSkip (todo.map fun q => q.life) := by
  intro n
  induction n with
  | zero =>
    intro k s done todo hs _ hn
    have ht : todo = [] := List.length_eq_zero.1 (by omega)
    subst ht
    simp [forEachFrom, hs, lifeSkip]
  | succ n ih =>
    intro k s done todo hs hk hn
    subst hk
    cases todo with
    | nil =>
      rw [forEachFrom_beyond _ _ _ _ _ (by rw [hs]; simp)]
      simp [hs, lifeSkip]
    | cons p rest =>
      have hget : s.particles[done.length]? = some p := by
        rw [hs, List.getElem?_append_right (le_refl _)]
        simp
      unfold forEachFrom
      rw [hget]
      simp only []
      have hcb := updateParticlesCb_particles p done.length s
      simp only [List.length_cons] at hn
      by_cases hrem : p.life - 1 ≤ 0
      · rw [if_pos hrem, hs, List.eraseIdx_append_of_length_le (le_refl _)] at hcb
        simp only [Nat.sub_self, List.eraseIdx_cons_zero] at hcb
        cases rest with
        | nil =>
          rw [forEachFrom_beyond _ _ _ _ _ (by rw [hcb]; simp), hcb]
          simp only [List.map_cons, List.map_nil, lifeSkip_drop_nil _ hrem, List.append_nil]
        | cons q rest' =>
          simp only [List.length_cons] at hn
          rw [ih (done.length + 1) _ (done ++ [q]) rest' (by rw [hcb]; simp) (by simp)
            (by omega)]
          simp only [List.map_append, List.map_cons, List.map_nil, lifeSkip_drop_cons _ _ _ hrem,
            List.append_assoc, List.singleton_append]
      · rw [if_neg hrem, hs, List.set_append_right _ _ (le_refl _)] at hcb
        simp only [Nat.sub_self, List.set_cons_zero] at hcb
        rw [ih (done.length + 1) _ (done ++
          [{ p with x := p.x + p.vx, y := p.y + p.vy, vy := p.vy + 3 / 10, life := p.life - 1 }])
          rest (by rw [hcb]; simp) (by simp) (by omega)]
        simp only [List.map_append, List.map_cons, List.map_nil, lifeSkip_keep _ _ hrem,
          List.append_assoc, List.singleton_append]

/-- One call of `updateParticles`, seen on the lives of the particles, is
`lifeSkip`. -/
theorem updateParticles_lives (s : GameState) :
    ((updateParticles s).particles.map fun q => q.life)
      = lifeSkip (s.particles.map fun q => q.life) := by
  unfold updateParticles forEach
  rw [updateParticles_loop_lives s.particles.length 0 s [] s.particles rfl rfl (le_refl _)]
  rfl

/-- Any number of calls of `updateParticles`, seen on the lives. -/
theorem updateParticles_iterate_lives (s : GameState) (n : Nat) :
    ((updateParticles^[n] s).particles.map fun q => q.life)
      = lifeSkip^[n] (s.particles.map fun q => q.life) := by
  induction n with
  | zero => rfl
  | succ n ih =>
    rw [Function.iterate_succ_apply', Function.iterate_succ_apply', updateParticles_lives, ih]

/-- The particles of `burstState`: one burst of 8, each with life 60. -/
theorem burstState_lives :
    (burstState.particles.map fun q => q.life) = List.replicate 8 60 := by
  obtain ⟨burst, rnd, hlen, hall, heq⟩ := createParticles_spec 112 320 (Color.hex "#ffff00") 8
    runningState
  have hp : burstState.particles = burst := by
    unfold burstState
    rw [heq]
    rfl
  rw [hp]
  apply List.eq_replicate_iff.2
  refine ⟨by simp [hlen], ?_⟩
  intro b hb
  obtain ⟨q, hq, rfl⟩ := List.mem_map.1 hb
  exact (hall q hq).2.2.1

/-- Claim C18. Removal during the index-based iteration passes over the next
element. In the loop of `updateParticles` (likewise `updateObstacles`,
`updateCoins`), when the element `a` visited at index `k` is removed, the
element `b` that followed it is at index `k` when the loop ends, exactly as it
was: not moved, not aged, not tested. Concretely, for a particle store holding
one burst of 8 particles with life 60: after 60 calls of `updateParticles` 4
particles are left, each with life 1; after 63 calls the store is empty, and it
is not empty after any smaller number of calls. -/
theorem removal_skips_next (n k : Nat) (s : GameState) :
    (∀ a b : Particle, s.particles[k]? = some a → a.life - 1 ≤ 0 →
      s.particles[k + 1]? = some b →
      (forEachFrom (fun s => s.particles) updateParticlesCb (n + 1) k s).particles[k]?
        = some b) ∧
    (∀ a b : Obstacle, s.obstacles[k]? = some a →
      a.x - gameSpeed * s.speedMultiplier + a.width < 0 →
      s.obstacles[k + 1]? = some b →
      (forEachFrom (fun s => s.obstacles) updateObstaclesCb (n + 1) k s).obstacles[k]?
        = some b) ∧
    (∀ a b : Coin, s.coins[k]? = some a →
      (a.x - gameSpeed * s.speedMultiplier + a.size < 0 ∨
        (a.collected = false ∧
          coinHitsPlayer { a with x := a.x - gameSpeed * s.speedMultiplier } s.player = true)) →
      s.coins[k + 1]? = some b →
      (forEachFrom (fun s => s.coins) updateCoinsCb (n + 1) k s).coins[k]? = some b) ∧
    ((s.particles.map fun q => q.life) = List.replicate 8 60 →
      ((updateParticles^[60] s).particles.map fun q => q.life) = [1, 1, 1, 1] ∧
      (updateParticles^[63] s).particles = [] ∧
      ∀ m < 63, (updateParticles^[m] s).particles ≠ []) := by
  refine ⟨?_, ?_, ?_, ?_⟩
  · intro a b ha hrem hb
    refine forEachFrom_skip (fun s => s.particles) updateParticlesCb ?_ n k s a b ha ?_ hb
    · intro q i t j hj _
      show (updateParticlesCb q i t).particles[j]? = t.particles[j]?
      rw [updateParticlesCb_particles]
      split
      · exact (getElem?_set_eraseIdx_below _ _ _ q hj).2
      · exact (getElem?_set_eraseIdx_below _ _ _ _ hj).1
    · show (updateParticlesCb a k s).particles = s.particles.eraseIdx k
      rw [updateParticlesCb_particles, if_pos hrem]
  · intro a b ha hrem hb
    refine forEachFrom_skip (fun s => s.obstacles) updateObstaclesCb ?_ n k s a b ha ?_ hb
    · intro q i t j hj _
      show (updateObstaclesCb q i t).obstacles[j]? = t.obstacles[j]?
      rw [updateObstaclesCb_obstacles]
      split
      · exact (getElem?_set_eraseIdx_below _ _ _ q hj).2
      · exact (getElem?_set_eraseIdx_below _ _ _ _ hj).1
    · show (updateObstaclesCb a k s).obstacles = s.obstacles.eraseIdx k
      rw [updateObstaclesCb_obstacles, if_pos hrem]
  · intro a b ha hrem hb
    refine forEachFrom_skip (fun s => s.coins) updateCoinsCb ?_ n k s a b ha ?_ hb
    · intro q i t j hj _
      show (updateCoinsCb q i t).coins[j]? = t.coins[j]?
      rw [updateCoinsCb_coins]
      split
      · exact (getElem?_set_eraseIdx_below _ _ _ q hj).2
      · exact (getElem?_set_eraseIdx_below _ _ _ _ hj).1
    · show (updateCoinsCb a k s).coins = s.coins.eraseIdx k
      rw [updateCoinsCb_coins, if_pos hrem]
  · intro hl
    refine ⟨?_, ?_, ?_⟩
    · rw [updateParticles_iterate_lives, hl]
      decide
    · apply List.map_eq_nil_iff.1
      rw [updateParticles_iterate_lives s 63, hl]
      decide
    · intro m hm hnil
      have h0 : ((updateParticles^[m] s).particles.map fun q => q.life) = [] := by
        rw [hnil]
        rfl
      rw [updateParticles_iterate_lives, hl] at h0
      have hall : ∀ i < 63, lifeSkip^[i] (List.replicate 8 60) ≠ [] := by decide
      exact hall m hm h0

/-- Witness for C18: two particles, the first at the end of its life; the two
walls of `wallPairState`; the two coins of `coinPairState`; and the burst of
`burstState`. -/
theorem removal_skips_next_witness :
    (dyingState.particles[0]? = some dyingParticle ∧ dyingParticle.life - 1 ≤ 0 ∧
      dyingState.particles[0 + 1]? = some freshParticle ∧
      wallPairState.obstacles[0]? = some (wallAt (-19)) ∧
      (wallAt (-19)).x - gameSpeed * wallPairState.speedMultiplier + (wallAt (-19)).width < 0 ∧
      wallPairState.obstacles[0 + 1]? = some (wallAt 50) ∧
      coinPairState.coins[0]? = some (coinAt (-14) 200) ∧
      (coinAt (-14) 200).x - gameSpeed * coinPairState.speedMultiplier
        + (coinAt (-14) 200).size < 0 ∧
      coinPairState.coins[0 + 1]? = some (coinAt 50 200) ∧
      (burstState.particles.map fun q => q.life) = List.replicate 8 60) ∧
    (updateParticles dyingState).particles[0]? = some freshParticle ∧
    (updateObstacles wallPairState).obstacles[0]? = some (wallAt 50) ∧
    (updateCoins coinPairState).coins[0]? = some (coinAt 50 200) ∧
    ((updateParticles^[60] burstState).particles.map fun q => q.life) = [1, 1, 1, 1] ∧
    (updateParticles^[63] burstState).particles = [] ∧
    ∀ m < 63, (updateParticles^[m] burstState).particles ≠ [] :=
  have h1 : dyingParticle.life - 1 ≤ 0 := by decide
  have h2 : (wallAt (-19)).x - gameSpeed * wallPairState.speedMultiplier
      + (wallAt (-19)).width < 0 := by
    norm_num [gameSpeed, wallPairState, runningState, initialState]
  have h3 : (coinAt (-14) 200).x - gameSpeed * coinPairState.speedMultiplier
      + (coinAt (-14) 200).size < 0 := by
    norm_num [gameSpeed, coinPairState, runningState, initialState, coinAt]
  ⟨⟨rfl, h1, rfl, rfl, h2, rfl, rfl, h3, rfl, burstState_lives⟩,
    (removal_skips_next 1 0 dyingState).1 dyingParticle freshParticle rfl h1 rfl,
    (removal_skips_next 1 0 wallPairState).2.1 (wallAt (-19)) (wallAt 50) rfl h2 rfl,
    (removal_skips_next 1 0 coinPairState).2.2.1 (coinAt (-14) 200) (coinAt 50 200) rfl
      (Or.inl h3) rfl,
    (removal_skips_next 0 0 burstState).2.2.2 burstState_lives⟩

/-! ## The jump trajectory over the rationals

In exact arithmetic the jump follows a closed form, which bounds how high the
player gets during a run. -/

/-- The closed form of the height during a jump is never above (numerically
below) 166.8: `2 n² - 73 n + 666 = (2 n - 37) (n - 18)` is not negative for a
whole `n`. -/
theorem apex_bound (n : Nat) : (834 : ℚ) / 5 ≤ 300 - 15 * n + 2 / 5 * n * (n + 1) := by
  rcases Nat.lt_or_ge n 19 with h | h
  · have h0 : n ≤ 18 := by omega
    have h1 : (n : ℚ) ≤ 18 := by exact_mod_cast h0
    nlinarith [mul_nonneg (sub_nonneg.2 h1) (sub_nonneg.2 h1)]
  · have h1 : (19 : ℚ) ≤ n := by exact_mod_cast h
    nlinarith [mul_nonneg (sub_nonneg.2 h1) (sub_nonneg.2 h1)]

/-- One `updatePlayer` in the air, `n` steps after the jump: the velocity and the
position before the clamp follow the closed form for `n + 1`. -/
theorem updatePlayer_airborne (s : GameState) (n : Nat) (hh : s.player.height = 40)
    (hg : s.player.onGround = false) (hv : s.player.velocityY = -15 + 4 / 5 * n)
    (hy : s.player.y = 300 - 15 * n + 2 / 5 * n * (n + 1)) :
    (300 - 15 * ((n + 1 : Nat) : ℚ) + 2 / 5 * ((n + 1 : Nat) : ℚ) * (((n + 1 : Nat) : ℚ) + 1)
        < 300 →
      (updatePlayer s).player.onGround = false ∧
      (updatePlayer s).player.velocityY = -15 + 4 / 5 * ((n + 1 : Nat) : ℚ) ∧
      (updatePlayer s).player.y
        = 300 - 15 * ((n + 1 : Nat) : ℚ)
          + 2 / 5 * ((n + 1 : Nat) : ℚ) * (((n + 1 : Nat) : ℚ) + 1)) ∧
    (300 ≤ 300 - 15 * ((n + 1 : Nat) : ℚ)
        + 2 / 5 * ((n + 1 : Nat) : ℚ) * (((n + 1 : Nat) : ℚ) + 1) →
      (updatePlayer s).player.onGround = true ∧
      (updatePlayer s).player.velocityY = 0 ∧
      (updatePlayer s).player.y = 300) := by
  obtain ⟨py, pv, pg, -, -, -⟩ := updatePlayer_physics s
  have hpre : s.player.y +
      (if s.player.onGround then s.player.velocityY else s.player.velocityY + gravity)
      = 300 - 15 * ((n + 1 : Nat) : ℚ)
        + 2 / 5 * ((n + 1 : Nat) : ℚ) * (((n + 1 : Nat) : ℚ) + 1) := by
    rw [hg, hv, hy]
    simp only [Bool.false_eq_true, if_false, gravity]
    push_cast
    ring
  have hvel : (if s.player.onGround then s.player.velocityY else s.player.velocityY + gravity)
      = -15 + 4 / 5 * ((n + 1 : Nat) : ℚ) := by
    rw [hg, hv]
    simp only [Bool.false_eq_true, if_false, gravity]
    push_cast
    ring
  have hline : groundY - s.player.height = 300 := by
    rw [hh]; norm_num [groundY]
  rw [hpre, hline] at py pg
  rw [hpre, hline, hvel] at pv
  constructor
  · intro hlt
    have hn : ¬ (300 : ℚ) ≤ 300 - 15 * ((n + 1 : Nat) : ℚ)
        + 2 / 5 * ((n + 1 : Nat) : ℚ) * (((n + 1 : Nat) : ℚ) + 1) := not_le.2 hlt
    rw [if_neg hn] at py pv
    exact ⟨by rw [pg]; exact decide_eq_false hn, pv, py⟩
  · intro hge
    rw [if_pos hge] at py pv
    exact ⟨by rw [pg]; exact decide_eq_true hge, pv, py⟩

/-- A player at rest on the ground line stays there through `updatePlayer`. -/
theorem PlayerGrounded_of_rest (s : GameState) (hh : s.player.height = 40)
    (hg : s.player.onGround = true) (hv : s.player.velocityY = 0) (hy : s.player.y = 300) :
    (updatePlayer s).player.onGround = true ∧ (updatePlayer s).player.velocityY = 0 ∧
    (updatePlayer s).player.y = 300 := by
  obtain ⟨py, pv, pg, -, -, -⟩ := updatePlayer_physics s
  have hp : groundY - s.player.height ≤ s.player.y +
      (if s.player.onGround then s.player.velocityY else s.player.velocityY + gravity) := by
    rw [hg, hv, hy, hh]
    norm_num [groundY]
  refine ⟨?_, ?_, ?_⟩
  · rw [pg]; exact decide_eq_true hp
  · rw [pv, if_pos hp]
  · rw [py, if_pos hp, hh]; norm_num [groundY]

/-- The trajectory is kept by `updatePlayer`. -/
theorem OnTrajectory_updatePlayer (s : GameState) (h : OnTrajectory s.player) :
    OnTrajectory (updatePlayer s).player := by
  obtain ⟨h40, hcase⟩ := h
  refine ⟨(updatePlayer_physics s).2.2.2.2.2.trans h40, ?_⟩
  rcases hcase with ⟨g1, g2, g3⟩ | ⟨g1, n, g2, g3⟩
  · exact Or.inl (PlayerGrounded_of_rest s h40 g1 g2 g3)
  · obtain ⟨hair, hland⟩ := updatePlayer_airborne s n h40 g1 g2 g3
    rcases lt_or_le (300 - 15 * ((n + 1 : Nat) : ℚ)
        + 2 / 5 * ((n + 1 : Nat) : ℚ) * (((n + 1 : Nat) : ℚ) + 1)) 300 with hlt | hge
    · exact Or.inr ⟨(hair hlt).1, n + 1, (hair hlt).2.1, (hair hlt).2.2⟩
    · exact Or.inl (hland hge)

/-- The trajectory is kept by `jump`: a jump starts on the ground line, step 0 of
the closed form. -/
theorem OnTrajectory_jump (s : GameState) (h : OnTrajectory s.player) :
    OnTrajectory (jump s).player := by
  unfold jump
  split
  · rename_i hc
    rcases h.2 with ⟨-, -, g3⟩ | ⟨g1, -⟩
    · refine ⟨h.1, Or.inr ⟨rfl, 0, ?_, ?_⟩⟩
      · show jumpPower = _
        norm_num [jumpPower]
      · show s.player.y = _
        rw [g3]
        norm_num
    · rw [g1] at hc
      simp at hc
  · exact h

/-- Every state of a run has its player on the trajectory. -/
theorem OnTrajectory_of_reachable (W : ℚ) (s : GameState) (h : Reachable W s) :
    OnTrajectory s.player := by
  induction h with
  | restart s hw hh => exact ⟨hh, Or.inl ⟨rfl, rfl, rfl⟩⟩
  | jump s _ ih => exact OnTrajectory_jump s ih
  | tick s _ ih =>
    cases hr : s.gameRunning
    · rw [gameLoop_stopped W s hr]; exact ih
    · rw [(gameLoop_physics W s hr).1]; exact OnTrajectory_updatePlayer s ih

/-- A player on the trajectory is never above the apex: `y ≥ 166.8`. -/
theorem OnTrajectory_apex (p : Player) (h : OnTrajectory p) : (834 : ℚ) / 5 ≤ p.y := by
  rcases h.2 with ⟨-, -, g3⟩ | ⟨-, n, -, g3⟩
  · rw [g3]; norm_num
  · rw [g3]; exact apex_bound n

/-! ## The jump in doubles -/

/-- The shift found by `excessBits` leaves at most 53 bits, and exactly 53 bits
of a number that has more: the shift is then at least 1. -/
theorem excessBits_spec (fuel a : Nat) (h : a < 2 ^ 53 * 2 ^ fuel) :
    a / 2 ^ excessBits fuel a < 2 ^ 53 ∧
    (2 ^ 53 ≤ a → 2 ^ 52 ≤ a / 2 ^ excessBits fuel a ∧ 1 ≤ excessBits fuel a) := by
  induction fuel generalizing a with
  | zero =>
    have e : excessBits 0 a = 0 := rfl
    rw [e]
    simp only [pow_zero, mul_one, Nat.div_one] at h ⊢
    exact ⟨h, fun h2 => absurd h (by omega)⟩
  | succ fuel ih =>
    by_cases ha : a < 2 ^ 53
    · have e : excessBits (fuel + 1) a = 0 := by rw [excessBits, if_pos ha]
      rw [e]
      simp only [pow_zero, Nat.div_one]
      exact ⟨ha, fun h2 => absurd ha (by omega)⟩
    · have e : excessBits (fuel + 1) a = excessBits fuel (a / 2) + 1 := by
        rw [excessBits, if_neg ha]
      have h2 : a / 2 < 2 ^ 53 * 2 ^ fuel := by
        apply Nat.div_lt_of_lt_mul
        rw [pow_succ 2 fuel, ← Nat.mul_assoc, Nat.mul_comm] at h
        exact h
      obtain ⟨i1, i2⟩ := ih (a / 2) h2
      rw [e, pow_succ', ← Nat.div_div_eq_div_mul]
      refine ⟨i1, fun _ => ⟨?_, by omega⟩⟩
      by_cases hb : 2 ^ 53 ≤ a / 2
      · exact (i2 hb).1
      · have e0 : excessBits fuel (a / 2) = 0 := by
          cases fuel with
          | zero => rfl
          | succ f => rw [excessBits, if_pos (Nat.lt_of_not_le hb)]
        rw [e0]
        simp only [pow_zero, Nat.div_one]
        omega

/-- `roundDouble` rounds to nearest, ties to even. A value of fewer than 54 bits
is kept. A longer value `m`, with `k` the shift that leaves it 53 bits, becomes
a whole number `q` of `2^k`, of the sign of `m`, with `2^52 ≤ q ≤ 2^53`; it is
at most half of `2^k` away from `m`, and if it is exactly half away then `q` is
even. -/
theorem roundDouble_nearest (m : Int) :
    (m.natAbs < 2 ^ 53 → roundDouble m = m) ∧
    (2 ^ 53 ≤ m.natAbs → ∃ k q : Nat, 1 ≤ k ∧
      2 ^ 52 ≤ m.natAbs / 2 ^ k ∧ m.natAbs / 2 ^ k < 2 ^ 53 ∧
      2 ^ 52 ≤ q ∧ q ≤ 2 ^ 53 ∧
      roundDouble m = m.sign * ((q * 2 ^ k : Nat) : Int) ∧
      2 * (roundDouble m - m).natAbs ≤ 2 ^ k ∧
      (2 * (roundDouble m - m).natAbs = 2 ^ k → q % 2 = 0)) := by
  constructor
  · intro h
    simp only [roundDouble, if_pos h]
  · intro h
    have hfuel : m.natAbs < 2 ^ 53 * 2 ^ m.natAbs :=
      lt_of_lt_of_le (Nat.lt_two_pow m.natAbs) (Nat.le_mul_of_pos_left _ (by norm_num))
    obtain ⟨b1, b2⟩ := excessBits_spec m.natAbs m.natAbs hfuel
    obtain ⟨b2, b3⟩ := b2 h
    have hnot : ¬ m.natAbs < 2 ^ 53 := by omega
    have hpow : 2 ^ excessBits m.natAbs m.natAbs
        = 2 * 2 ^ (excessBits m.natAbs m.natAbs - 1) := by
      rw [← pow_succ']
      congr 1
      omega
    have hdm := Nat.div_add_mod m.natAbs (2 ^ excessBits m.natAbs m.natAbs)
    have hr := Nat.mod_lt m.natAbs (Nat.two_pow_pos (excessBits m.natAbs m.natAbs))
    have hround : roundDouble m = m.sign *
        (((if decide (2 ^ (excessBits m.natAbs m.natAbs - 1)
                < m.natAbs % 2 ^ excessBits m.natAbs m.natAbs)
              || (decide (m.natAbs % 2 ^ excessBits m.natAbs m.natAbs
                    = 2 ^ (excessBits m.natAbs m.natAbs - 1))
                  && decide (m.natAbs / 2 ^ excessBits m.natAbs m.natAbs % 2 = 1))
            then m.natAbs / 2 ^ excessBits m.natAbs m.natAbs + 1
            else m.natAbs / 2 ^ excessBits m.natAbs m.natAbs)
          * 2 ^ excessBits m.natAbs m.natAbs : Nat) : Int) := by
      simp only [roundDouble, if_neg hnot]
    generalize excessBits m.natAbs m.natAbs = k at *
    obtain ⟨P, hP⟩ : ∃ P, P = 2 ^ k := ⟨_, rfl⟩
    obtain ⟨H, hH⟩ : ∃ H, H = 2 ^ (k - 1) := ⟨_, rfl⟩
    rw [← hP, ← hH] at hpow hround
    rw [← hP] at hdm hr
    obtain ⟨q0, hq0⟩ : ∃ q0, q0 = m.natAbs / P := ⟨_, rfl⟩
    obtain ⟨r, hr0⟩ : ∃ r, r = m.natAbs % P := ⟨_, rfl⟩
    rw [← hq0, ← hr0] at hdm hround
    rw [← hr0] at hr
    rw [← hP, ← hq0] at b1 b2
    have hsign : m = m.sign * (m.natAbs : Int) := (Int.sign_mul_natAbs m).symm
    have hs : m.sign = 1 ∨ m.sign = -1 := by
      rcases lt_trichotomy m 0 with hm | hm | hm
      · exact Or.inr (Int.sign_eq_neg_one_of_neg hm)
      · subst hm
        simp at h
      · exact Or.inl (Int.sign_eq_one_of_pos hm)
    by_cases hup : H < r ∨ (r = H ∧ q0 % 2 = 1)
    · have hif : (decide (H < r) || (decide (r = H) && decide (q0 % 2 = 1))) = true := by
        simpa using hup
      rw [if_pos hif] at hround
      have hval : ((q0 + 1) * P : Nat) = m.natAbs + (P - r) := by
        rw [Nat.add_mul, ← hdm, Nat.mul_comm P q0]
        omega
      refine ⟨k, q0 + 1, b3, by rw [← hP, ← hq0]; exact b2, by rw [← hP, ← hq0]; exact b1,
        by omega, by omega, by rw [hround, hP], ?_, ?_⟩
      · rw [hround, hval, ← hP]
        rcases hs with hs | hs <;> rw [hs] at hsign ⊢ <;> omega
      · intro htie
        rw [hround, hval, ← hP] at htie
        have hrH : r = H := by
          rcases hs with hs | hs <;> rw [hs] at hsign htie <;> omega
        rcases hup with hup | hup
        · omega
        · omega
    · have hif : (decide (H < r) || (decide (r = H) && decide (q0 % 2 = 1))) = false := by
        simpa using hup
      rw [hif] at hround
      simp only [Bool.false_eq_true, if_false] at hround
      have hval : (q0 * P : Nat) = m.natAbs - r := by
        rw [← hdm, Nat.mul_comm P q0]
        omega
      refine ⟨k, q0, b3, by rw [← hP, ← hq0]; exact b2, by rw [← hP, ← hq0]; exact b1,
        b2, by omega, by rw [hround, hP], ?_, ?_⟩
      · rw [hround, hval, ← hP]
        rcases hs with hs | hs <;> rw [hs] at hsign ⊢ <;> omega
      · intro htie
        rw [hround, hval, ← hP] at htie
        have hrH : r = H := by
          rcases hs with hs | hs <;> rw [hs] at hsign htie <;> omega
        have : ¬ q0 % 2 = 1 := fun hodd => hup (Or.inr ⟨hrH, hodd⟩)
        omega

/-- The constants `gravityIEEE` and `apexIEEE` are the doubles nearest to 0.8 and
to 166.8: each is a 53-bit whole number times its unit in the last place (`2^7`
and `2^15` units of `2^-60`), and less than half a unit in the last place away
from the decimal value. -/
theorem literals_nearest :
    (gravityIEEE % 2 ^ 7 = 0 ∧ 2 ^ 52 ≤ gravityIEEE / 2 ^ 7 ∧ gravityIEEE / 2 ^ 7 < 2 ^ 53 ∧
      (5 * gravityIEEE - 4 * unitIEEE).natAbs < 5 * 2 ^ 6) ∧
    (apexIEEE % 2 ^ 15 = 0 ∧ 2 ^ 52 ≤ apexIEEE / 2 ^ 15 ∧ apexIEEE / 2 ^ 15 < 2 ^ 53 ∧
      (5 * apexIEEE - 834 * unitIEEE).natAbs < 5 * 2 ^ 14) := by
  decide

/-- A player at rest on the ground line stays there through `updatePlayer`, in
doubles. -/
theorem updatePlayerIEEE_grounded : updatePlayerIEEE groundedIEEE = groundedIEEE := by
  decide

/-- A `jump` in the air, or in a stopped game, changes nothing. -/
theorem jumpIEEE_airborne (g : Bool) (p : PlayerIEEE) (h : p.onGround = false ∨ g = false) :
    jumpIEEE g p = p := by
  rcases h with h | h <;> simp [jumpIEEE, h]

set_option maxRecDepth 100000 in
/-- The first 36 calls of `updatePlayer` after a jump from the ground, computed
in doubles: the player is in the air, above the ground line after the first
call, within `2^-46` and `2^-42` of the closed forms for the velocity and the
position, and nowhere higher than after 18 calls. -/
theorem jumpIEEE_steps : ∀ n < 37,
    (updatePlayerIEEE^[n] (jumpIEEE true groundedIEEE)).onGround = false ∧
    (5 * (updatePlayerIEEE^[n] (jumpIEEE true groundedIEEE)).velocityY
        - (-75 + 4 * (n : Int)) * unitIEEE).natAbs ≤ 5 * 2 ^ 14 ∧
    (5 * (updatePlayerIEEE^[n] (jumpIEEE true groundedIEEE)).y
        - (1500 - 75 * (n : Int) + 2 * n * (n + 1)) * unitIEEE).natAbs ≤ 5 * 2 ^ 18 ∧
    (1 ≤ n → (updatePlayerIEEE^[n] (jumpIEEE true groundedIEEE)).y < 300 * unitIEEE) ∧
    (updatePlayerIEEE^[18] (jumpIEEE true groundedIEEE)).y
      ≤ (updatePlayerIEEE^[n] (jumpIEEE true groundedIEEE)).y := by
  decide

set_option maxRecDepth 100000 in
/-- The 37th call of `updatePlayer` after a jump lands the player: the sum is
307.4 up to rounding, and the clamp puts the player at rest on the ground
line. -/
theorem jumpIEEE_landing : updatePlayerIEEE^[37] (jumpIEEE true groundedIEEE) = groundedIEEE := by
  decide

/-- After the landing the player stays at rest on the ground line. -/
theorem jumpIEEE_landed (k : Nat) :
    updatePlayerIEEE^[37 + k] (jumpIEEE true groundedIEEE) = groundedIEEE := by
  induction k with
  | zero => exact jumpIEEE_landing
  | succ k ih =>
    rw [← Nat.add_assoc, Function.iterate_succ_apply', ih]
    exact updatePlayerIEEE_grounded

set_option maxRecDepth 100000 in
/-- The height after 18 calls, in units of `2^-60`: two units in the last place
above the double 166.8. -/
theorem jumpIEEE_apex :
    (updatePlayerIEEE^[18] (jumpIEEE true groundedIEEE)).y = apexIEEE + 2 ^ 16 := by
  decide

/-- A player of a run in doubles is at rest on the ground line, or is the
player 0 to 36 calls of `updatePlayer` after a jump from the ground. -/
theorem ReachableIEEE_cases (p : PlayerIEEE) (h : ReachableIEEE p) :
    p = groundedIEEE ∨ ∃ n, n < 37 ∧ p = updatePlayerIEEE^[n] (jumpIEEE true groundedIEEE) := by
  induction h with
  | restart => exact Or.inl rfl
  | jump g p _ ih =>
    rcases ih with h0 | ⟨n, hn, hq⟩
    · subst h0
      cases g
      · exact Or.inl (jumpIEEE_airborne false _ (Or.inr rfl))
      · exact Or.inr ⟨0, by decide, rfl⟩
    · rw [jumpIEEE_airborne g p (Or.inl (by rw [hq]; exact (jumpIEEE_steps n hn).1))]
      exact Or.inr ⟨n, hn, hq⟩
  | tick p _ ih =>
    rcases ih with h0 | ⟨n, hn, hq⟩
    · rw [h0]
      exact Or.inl updatePlayerIEEE_grounded
    · rw [hq, ← Function.iterate_succ_apply' updatePlayerIEEE n (jumpIEEE true groundedIEEE)]
      rcases Nat.lt_or_ge (n + 1) 37 with h | h
      · exact Or.inr ⟨n + 1, h, rfl⟩
      · have h36 : n = 36 := by omega
        subst h36
        exact Or.inl jumpIEEE_landing

/-- Counterexample for C19. In the code's doubles the player 18 calls of
`updatePlayer` after a jump from the ground is at `y = 166.80000000000007`
(`192307306968422154240 * 2^-60`): this is not the double 166.8, and not the
number 166.8. Its `velocityY` is `-0.5999999999999956`
(`-691752902764103168 * 2^-60`): this is not the number -0.6, and not the
double `-0.5999999999999996` that the expression `-15 + 0.8 * 18` has. -/
theorem jump_apex_not_exact :
    (updatePlayerIEEE^[18] (jumpIEEE true groundedIEEE)).y = 192307306968422154240 ∧
    (updatePlayerIEEE^[18] (jumpIEEE true groundedIEEE)).y ≠ apexIEEE ∧
    5 * (updatePlayerIEEE^[18] (jumpIEEE true groundedIEEE)).y ≠ 834 * unitIEEE ∧
    (updatePlayerIEEE^[18] (jumpIEEE true groundedIEEE)).velocityY = -691752902764103168 ∧
    5 * (updatePlayerIEEE^[18] (jumpIEEE true groundedIEEE)).velocityY ≠ -3 * unitIEEE ∧
    (updatePlayerIEEE^[18] (jumpIEEE true groundedIEEE)).velocityY
      ≠ addIEEE (-15 * unitIEEE) (roundDouble (gravityIEEE * 18)) := by
  set_option maxRecDepth 100000 in decide

/-- Claim C19 (amended). In the code's doubles, from the grounded player
(`y = 300`, `velocityY = 0`, `onGround = true`, a running game), after `jump`
and `n` calls of `updatePlayer`: for `1 ≤ n ≤ 36` the player is in the air with
`y < 300`, its `velocityY` within `2^-46` of `-15 + 0.8 n` and its `y` within
`2^-42` of `300 - 15 n + 0.4 n (n + 1)`; at `n = 37` the player is back at
`y = 300` with `velocityY = 0` and `onGround = true`, exactly. The highest
point is reached at `n = 18`, two units in the last place above the double
166.8: no number of calls gives a smaller `y`, and in every state of a run the
player's `y` is at least that, so above 166.8. -/
theorem jump_trajectory_rounded (n : Nat) (p : PlayerIEEE) (h1 : 1 ≤ n) (h2 : n ≤ 36)
    (hp : ReachableIEEE p) :
    ((updatePlayerIEEE^[n] (jumpIEEE true groundedIEEE)).onGround = false ∧
      (5 * (updatePlayerIEEE^[n] (jumpIEEE true groundedIEEE)).velocityY
          - (-75 + 4 * (n : Int)) * unitIEEE).natAbs ≤ 5 * 2 ^ 14 ∧
      (5 * (updatePlayerIEEE^[n] (jumpIEEE true groundedIEEE)).y
          - (1500 - 75 * (n : Int) + 2 * n * (n + 1)) * unitIEEE).natAbs ≤ 5 * 2 ^ 18 ∧
      (updatePlayerIEEE^[n] (jumpIEEE true groundedIEEE)).y < 300 * unitIEEE) ∧
    ((updatePlayerIEEE^[37] (jumpIEEE true groundedIEEE)).y = 300 * unitIEEE ∧
      (updatePlayerIEEE^[37] (jumpIEEE true groundedIEEE)).velocityY = 0 ∧
      (updatePlayerIEEE^[37] (jumpIEEE true groundedIEEE)).onGround = true) ∧
    ((updatePlayerIEEE^[18] (jumpIEEE true groundedIEEE)).y = apexIEEE + 2 ^ 16 ∧
      ∀ m, (updatePlayerIEEE^[18] (jumpIEEE true groundedIEEE)).y
        ≤ (updatePlayerIEEE^[m] (jumpIEEE true groundedIEEE)).y) ∧
    ((updatePlayerIEEE^[18] (jumpIEEE true groundedIEEE)).y ≤ p.y ∧ apexIEEE < p.y ∧
      834 * unitIEEE < 5 * p.y) := by
  have hground : (updatePlayerIEEE^[18] (jumpIEEE true groundedIEEE)).y ≤ groundedIEEE.y := by
    rw [jumpIEEE_apex]
    decide
  have hall : ∀ m, (updatePlayerIEEE^[18] (jumpIEEE true groundedIEEE)).y
      ≤ (updatePlayerIEEE^[m] (jumpIEEE true groundedIEEE)).y := by
    intro m
    rcases Nat.lt_or_ge m 37 with h | h
    · exact (jumpIEEE_steps m h).2.2.2.2
    · obtain ⟨k, rfl⟩ := Nat.exists_eq_add_of_le h
      rw [jumpIEEE_landed k]
      exact hground
  have hlow : (updatePlayerIEEE^[18] (jumpIEEE true groundedIEEE)).y ≤ p.y := by
    rcases ReachableIEEE_cases p hp with h0 | ⟨m, -, hq⟩
    · rw [h0]
      exact hground
    · rw [hq]
      exact hall m
  obtain ⟨s1, s2, s3, s4, -⟩ := jumpIEEE_steps n (by omega)
  refine ⟨⟨s1, s2, s3, s4 h1⟩, ?_, ⟨jumpIEEE_apex, hall⟩, hlow, ?_, ?_⟩
  · rw [jumpIEEE_landing]
    exact ⟨rfl, rfl, rfl⟩
  · rw [jumpIEEE_apex] at hlow
    have h16 : (0 : Int) < 2 ^ 16 := by decide
    omega
  · rw [jumpIEEE_apex] at hlow
    have hlit : 834 * unitIEEE < 5 * (apexIEEE + 2 ^ 16) := by decide
    omega

/-- Witness for C19: the player 18 calls after the jump, and the player one call
of `updatePlayer` after a jump from the restart state. -/
theorem jump_trajectory_rounded_witness :
    (1 ≤ 18 ∧ 18 ≤ 36 ∧ ReachableIEEE (updatePlayerIEEE (jumpIEEE true groundedIEEE))) ∧
    ((updatePlayerIEEE^[18] (jumpIEEE true groundedIEEE)).onGround = false ∧
      (5 * (updatePlayerIEEE^[18] (jumpIEEE true groundedIEEE)).velocityY
          - (-75 + 4 * ((18 : Nat) : Int)) * unitIEEE).natAbs ≤ 5 * 2 ^ 14 ∧
      (5 * (updatePlayerIEEE^[18] (jumpIEEE true groundedIEEE)).y
          - (1500 - 75 * ((18 : Nat) : Int) + 2 * (18 : Nat) * ((18 : Nat) + 1)) * unitIEEE).natAbs
        ≤ 5 * 2 ^ 18 ∧
      (updatePlayerIEEE^[18] (jumpIEEE true groundedIEEE)).y < 300 * unitIEEE) ∧
    ((updatePlayerIEEE^[37] (jumpIEEE true groundedIEEE)).y = 300 * unitIEEE ∧
      (updatePlayerIEEE^[37] (jumpIEEE true groundedIEEE)).velocityY = 0 ∧
      (updatePlayerIEEE^[37] (jumpIEEE true groundedIEEE)).onGround = true) ∧
    ((updatePlayerIEEE^[18] (jumpIEEE true groundedIEEE)).y = apexIEEE + 2 ^ 16 ∧
      ∀ m, (updatePlayerIEEE^[18] (jumpIEEE true groundedIEEE)).y
        ≤ (updatePlayerIEEE^[m] (jumpIEEE true groundedIEEE)).y) ∧
    ((updatePlayerIEEE^[18] (jumpIEEE true groundedIEEE)).y
        ≤ (updatePlayerIEEE (jumpIEEE true groundedIEEE)).y ∧
      apexIEEE < (updatePlayerIEEE (jumpIEEE true groundedIEEE)).y ∧
      834 * unitIEEE < 5 * (updatePlayerIEEE (jumpIEEE true groundedIEEE)).y) :=
  have hp : ReachableIEEE (updatePlayerIEEE (jumpIEEE true groundedIEEE)) :=
    ReachableIEEE.tick _ (ReachableIEEE.jump true _ ReachableIEEE.restart)
  ⟨⟨by decide, by decide, hp⟩, jump_trajectory_rounded 18 _ (by decide) (by decide) hp⟩

/-! ## Coins out of reach -/

/-- Claim C20. Some spawned coins can never be collected. `createCoin` appends a
coin of size 15 at `x = W` with `y = 100 r + 150` for the random number `r` it
draws, so with `y` in `[150, 250)` for `r` in `[0, 1)`, and with
`y + size ≤ 166.8` for `r ≤ 0.018`. For every state of a run (reached from the
restart state by jumps and ticks) and every coin with `y + size ≤ 166.8`, at
any `x`, the collection test of `updateCoins` is false; and for a player at
`y = 300` the test is false for every coin that `createCoin` can make. -/
theorem high_coins_never_collected (W : ℚ) (s t : GameState) (c : Coin) (p : Player)
    (hr0 : 0 ≤ s.random 0) (hr1 : s.random 0 < 1) (ht : Reachable W t)
    (hc : c.y + c.size ≤ 834 / 5) (hp : p.y = 300) :
    (∃ d : Coin, (createCoin W s).coins = s.coins ++ [d] ∧ d.x = W ∧
      d.y = s.random 0 * 100 + 150 ∧ d.size = 15 ∧ d.collected = false ∧
      150 ≤ d.y ∧ d.y < 250 ∧
      (s.random 0 ≤ 9 / 500 → d.y + d.size ≤ 834 / 5) ∧
      (∀ x : ℚ, coinHitsPlayer { d with x := x } p = false)) ∧
    (∀ x : ℚ, coinHitsPlayer { c with x := x } t.player = false) ∧
    coinHitsPlayer c t.player = false := by
  have hty := OnTrajectory_apex _ (OnTrajectory_of_reachable W t ht)
  have hmiss : ∀ x : ℚ, coinHitsPlayer { c with x := x } t.player = false := by
    intro x
    simp only [coinHitsPlayer, Bool.and_eq_false_imp, Bool.and_eq_true, decide_eq_true_eq,
      decide_eq_false_iff_not, not_lt, gt_iff_lt]
    intro _
    linarith
  refine ⟨⟨⟨W, s.random 0 * 100 + 150, 15, 0, false⟩, rfl, rfl, rfl, rfl, rfl, ?_, ?_, ?_, ?_⟩,
    hmiss, hmiss c.x⟩
  · show (150 : ℚ) ≤ s.random 0 * 100 + 150
    linarith
  · show s.random 0 * 100 + 150 < 250
    linarith
  · intro h
    show s.random 0 * 100 + 150 + 15 ≤ 834 / 5
    linarith
  · intro x
    simp only [coinHitsPlayer, Bool.and_eq_false_imp, Bool.and_eq_true, decide_eq_true_eq,
      decide_eq_false_iff_not, not_lt, gt_iff_lt, hp]
    intro _
    linarith

/-- Witness for C20: a coin spawned at the top of the band (`r = 0`), and the
state one tick after a jump from the restart state. -/
theorem high_coins_never_collected_witness :
    ((0 : ℚ) ≤ highCoinState.random 0 ∧ highCoinState.random 0 < 1 ∧
      Reachable 800 (gameLoop 800 (jump (restartReset runningState))) ∧
      (coinAt 100 150).y + (coinAt 100 150).size ≤ 834 / 5 ∧ initialPlayer.y = 300) ∧
    (∃ d : Coin, (createCoin 800 highCoinState).coins = highCoinState.coins ++ [d] ∧
      d.x = 800 ∧ d.y = highCoinState.random 0 * 100 + 150 ∧ d.size = 15 ∧
      d.collected = false ∧ 150 ≤ d.y ∧ d.y < 250 ∧ d.y + d.size ≤ 834 / 5 ∧
      (∀ x : ℚ, coinHitsPlayer { d with x := x } initialPlayer = false)) ∧
    coinHitsPlayer (coinAt 100 150)
      (gameLoop 800 (jump (restartReset runningState))).player = false :=
  have h0 : (0 : ℚ) ≤ highCoinState.random 0 := le_refl _
  have h1 : highCoinState.random 0 < 1 := by
    show (0 : ℚ) < 1
    norm_num
  have ht : Reachable 800 (gameLoop 800 (jump (restartReset runningState))) :=
    Reachable.tick _ (Reachable.jump _ (Reachable.restart runningState rfl rfl))
  have hc : (coinAt 100 150).y + (coinAt 100 150).size ≤ 834 / 5 := by
    norm_num [coinAt]
  have hsmall : highCoinState.random 0 ≤ 9 / 500 := by
    show (0 : ℚ) ≤ 9 / 500
    norm_num
  ⟨⟨h0, h1, ht, hc, rfl⟩,
    (high_coins_never_collected 800 highCoinState _ (coinAt 100 150) initialPlayer h0 h1 ht hc
      rfl).1.imp fun d hd => ⟨hd.1, hd.2.1, hd.2.2.1, hd.2.2.2.1, hd.2.2.2.2.1, hd.2.2.2.2.2.1,
        hd.2.2.2.2.2.2.1, hd.2.2.2.2.2.2.2.1 hsmall, hd.2.2.2.2.2.2.2.2⟩,
    (high_coins_never_collected 800 highCoinState _ (coinAt 100 150) initialPlayer h0 h1 ht hc
      rfl).2.2⟩

end EndlessRunner
